import Mathlib

/-!
Kernel composition protocol of `templates/kernels.h`.

A shallow embedding of the parameter-addressing and gradient-composition code of
`src/templates/kernels.h`.

* `double` is an arbitrary scalar type `F` carrying the operations the code uses
  (`+`, `*`, `0.0`) and no laws; the derivative statement instantiates `F` with the
  reals, and `IntDouble` is binary64 addition on integer values, where rounding shows.
* `unsigned` indices and sizes are natural numbers.  Every subtraction `i - n` in the
  source is reached only with `n ≤ i`.
* `const double*` and `double*` arguments are memories `Nat → F`; the pointer
  `&(grad[n])` is the memory seen from slot `n` on.
* Mutating member functions return the new object.
* `metrics.h` and `subspace.h` are not part of the sources: `Metric` and `Subspace`
  are the member-function tables the template calls, taken as parameters.
* The template is instantiated by a formula specification (`spec.params`,
  `spec.reparams`, `spec.value`, `spec.grad`): the own parameters `param_X_` of an object
  are the list `param_`, in template order, and the formulas are parameters.
-/

namespace George

variable {F M S : Type}

/-! ## Memory reached through a `double*` -/

/-- Memory reached through a pointer to `double`, indexed from the pointer. -/
abbrev Buf (F : Type) := Nat → F

/-- The assignment `g[i] = v`. -/
def write (g : Buf F) (i : Nat) (v : F) : Buf F :=
  fun j => if j = i then v else g j

/-- The pointer `&(g[n])`. -/
def offset (n : Nat) (g : Buf F) : Buf F :=
  fun j => g (n + j)

/-- Memory `g` after a callee that was handed `&(g[n])` left `sub` behind that pointer. -/
def store_at (n : Nat) (g sub : Buf F) : Buf F :=
  fun i => if i < n then g i else sub (i - n)

/-- Loop body of `for (; i < hi; ++i) grad[i] *= c`, run `fuel` times from `i`. -/
def scale_loop [Mul F] (c : F) : Nat → Nat → Buf F → Buf F
  | 0, _, g => g
  | fuel + 1, i, g => scale_loop c fuel (i + 1) (write g i (g i * c))

/-- The loop `for (i = lo; i < hi; ++i) grad[i] *= c`. -/
def scale_range [Mul F] (lo hi : Nat) (c : F) (g : Buf F) : Buf F :=
  scale_loop c (hi - lo) lo g

/-! ## External collaborators -/

/-- Member functions of a metric class `M` (from `metrics.h`) that the template calls. -/
structure Metric (F M : Type) where
  /-- The constructor `M(ndim, naxes)`. -/
  construct : Nat → Nat → M
  value : M → Buf F → Buf F → F
  /-- The call `gradient(x1, x2, grad)`: memory behind `grad` after the call. -/
  gradient : M → Buf F → Buf F → Buf F → Buf F
  size : M → Nat
  get_ndim : M → Nat
  get_axis : M → Nat → Nat
  set_axis : M → Nat → Nat → M
  get_parameter : M → Nat → F
  set_parameter : M → Nat → F → M

/-- Member functions of `Subspace` (from `subspace.h`) that the template calls. -/
structure Subspace (S : Type) where
  /-- The constructor `Subspace(ndim, naxes)`. -/
  construct : Nat → Nat → S
  get_naxes : S → Nat
  get_axis : S → Nat → Nat
  get_ndim : S → Nat
  set_axis : S → Nat → Nat → S

/-! ## Own-parameter addressing generated by the template loops -/

/-- The generated chain `if (i == idx) return param_X_;`, one test per own parameter,
`idx` being `loop.index - 1`; `none` when the chain falls through. -/
def get_own : List F → Nat → Nat → Option F
  | [], _, _ => none
  | p :: ps, idx, i => if i = idx then some p else get_own ps (idx + 1) i

/-- The generated chain `if (i == idx) { param_X_ = value; ... } else`, one test per own
parameter; `none` when the chain falls through to its last `else`. -/
def set_own : List F → Nat → Nat → F → Option (List F)
  | [], _, _, _ => none
  | p :: ps, idx, i, v =>
    if i = idx then some (v :: ps) else (set_own ps (idx + 1) i v).map (fun qs => p :: qs)

/-! ## Stationary primitive -/

/-- What the template is given for a stationary kernel class over the metric class `M`. -/
structure StationarySpec (F M : Type) where
  /-- The template argument `M`. -/
  metric : Metric F M
  /-- The bodies of `get_reparam_X (params...)`, in the order of `spec.reparams`. -/
  get_reparam : List (List F → F)
  /-- The body of `get_value (params..., reparams..., r2)`. -/
  get_value : List F → List F → F → F
  /-- The body of the `idx`-th `X_gradient (params..., reparams..., r2)`. -/
  param_gradient : Nat → List F → List F → F → F
  /-- The body of `radial_gradient (params..., reparams..., r2)`. -/
  radial_gradient : List F → List F → F → F

/-- Data members of a stationary kernel object. -/
structure Stationary (F M : Type) where
  metric_ : M
  param_ : List F
  reparam_ : List F

namespace Stationary

/-- The member `size_`, initialised to `spec.params|length` and never assigned again:
the number of `param_X_` members. -/
def size_ (s : Stationary F M) : Nat := s.param_.length

def update_reparams (c : StationarySpec F M) (s : Stationary F M) : Stationary F M :=
  { s with reparam_ := c.get_reparam.map (fun f => f s.param_) }

/-- The constructor, called with the own parameters, `ndim` and `naxes`. -/
def construct (c : StationarySpec F M) (params : List F) (ndim naxes : Nat) :
    Stationary F M :=
  update_reparams c { metric_ := c.metric.construct ndim naxes, param_ := params, reparam_ := [] }

def size (c : StationarySpec F M) (s : Stationary F M) : Nat :=
  c.metric.size s.metric_ + s.size_

def get_ndim (c : StationarySpec F M) (s : Stationary F M) : Nat :=
  c.metric.get_ndim s.metric_

def get_parameter (c : StationarySpec F M) (s : Stationary F M) (i : Nat) : F :=
  match get_own s.param_ 0 i with
  | some p => p
  | none => c.metric.get_parameter s.metric_ (i - s.size_)

def set_parameter (c : StationarySpec F M) (s : Stationary F M) (i : Nat) (value : F) :
    Stationary F M :=
  match set_own s.param_ 0 i value with
  | some ps => update_reparams c { s with param_ := ps }
  | none => { s with metric_ := c.metric.set_parameter s.metric_ (i - s.size_) value }

def get_metric_parameter (c : StationarySpec F M) (s : Stationary F M) (i : Nat) : F :=
  c.metric.get_parameter s.metric_ i

def set_metric_parameter (c : StationarySpec F M) (s : Stationary F M) (i : Nat) (value : F) :
    Stationary F M :=
  { s with metric_ := c.metric.set_parameter s.metric_ i value }

def get_axis (c : StationarySpec F M) (s : Stationary F M) (i : Nat) : Nat :=
  c.metric.get_axis s.metric_ i

def set_axis (c : StationarySpec F M) (s : Stationary F M) (i value : Nat) : Stationary F M :=
  { s with metric_ := c.metric.set_axis s.metric_ i value }

def value (c : StationarySpec F M) (s : Stationary F M) (x1 x2 : Buf F) : F :=
  let r2 := c.metric.value s.metric_ x1 x2
  c.get_value s.param_ s.reparam_ r2

/-- The generated assignments `grad[idx] = X_gradient(...)`, one per own parameter. -/
def own_gradient (c : StationarySpec F M) (s : Stationary F M) (r2 : F) (grad : Buf F) :
    Buf F :=
  (List.range s.param_.length).foldl
    (fun g idx => write g idx (c.param_gradient idx s.param_ s.reparam_ r2)) grad

def gradient [Mul F] (c : StationarySpec F M) (s : Stationary F M) (x1 x2 : Buf F)
    (grad : Buf F) : Buf F :=
  let n := size c s
  let r2 := c.metric.value s.metric_ x1 x2
  let r2grad := c.radial_gradient s.param_ s.reparam_ r2
  let g1 := own_gradient c s r2 grad
  let g2 := store_at s.size_ g1 (c.metric.gradient s.metric_ x1 x2 (offset s.size_ g1))
  scale_range s.size_ n r2grad g2

end Stationary

/-! ## Non-stationary (axis-wise) primitive -/

/-- What the template is given for a non-stationary kernel class. -/
structure AxisSpec (F S : Type) where
  /-- The class `Subspace`. -/
  subspace : Subspace S
  /-- The bodies of `get_reparam_X (params...)`, in the order of `spec.reparams`. -/
  get_reparam : List (List F → F)
  /-- The body of `get_value (params..., reparams..., x1, x2)`. -/
  get_value : List F → List F → F → F → F
  /-- The body of the `idx`-th `X_gradient (params..., reparams..., x1, x2)`. -/
  param_gradient : Nat → List F → List F → F → F → F

/-- Data members of a non-stationary kernel object. -/
structure AxisWise (F S : Type) where
  subspace_ : S
  param_ : List F
  reparam_ : List F

namespace AxisWise

/-- The member `size_`, initialised to `spec.params|length` and never assigned again:
the number of `param_X_` members. -/
def size_ (s : AxisWise F S) : Nat := s.param_.length

def update_reparams (c : AxisSpec F S) (s : AxisWise F S) : AxisWise F S :=
  { s with reparam_ := c.get_reparam.map (fun f => f s.param_) }

/-- The constructor, called with the own parameters, `ndim` and `naxes`. -/
def construct (c : AxisSpec F S) (params : List F) (ndim naxes : Nat) : AxisWise F S :=
  update_reparams c
    { subspace_ := c.subspace.construct ndim naxes, param_ := params, reparam_ := [] }

def size (s : AxisWise F S) : Nat := s.size_

def get_ndim (c : AxisSpec F S) (s : AxisWise F S) : Nat :=
  c.subspace.get_ndim s.subspace_

def get_axis (c : AxisSpec F S) (s : AxisWise F S) (i : Nat) : Nat :=
  c.subspace.get_axis s.subspace_ i

def set_axis (c : AxisSpec F S) (s : AxisWise F S) (i value : Nat) : AxisWise F S :=
  { s with subspace_ := c.subspace.set_axis s.subspace_ i value }

def get_parameter [Zero F] (s : AxisWise F S) (i : Nat) : F :=
  match get_own s.param_ 0 i with
  | some p => p
  | none => 0

def set_parameter (c : AxisSpec F S) (s : AxisWise F S) (i : Nat) (value : F) :
    AxisWise F S :=
  match set_own s.param_ 0 i value with
  | some ps => update_reparams c { s with param_ := ps }
  | none => s

/-- Inherited from `Kernel`: the empty body. -/
def set_metric_parameter (s : AxisWise F S) (_i : Nat) (_v : F) : AxisWise F S := s

def value [Zero F] [Add F] (c : AxisSpec F S) (s : AxisWise F S) (x1 x2 : Buf F) : F :=
  let n := c.subspace.get_naxes s.subspace_
  (List.range n).foldl
    (fun value i =>
      let j := c.subspace.get_axis s.subspace_ i
      value + c.get_value s.param_ s.reparam_ (x1 j) (x2 j)) 0

/-- The generated assignments `grad[idx] = 0.0`, one per own parameter. -/
def zero_own [Zero F] (s : AxisWise F S) (grad : Buf F) : Buf F :=
  (List.range s.param_.length).foldl (fun g idx => write g idx 0) grad

/-- The generated statements `grad[idx] += X_gradient(..., x1[j], x2[j])`, one per own
parameter: the body of the loop over the axes, after `j = subspace_.get_axis(i)`. -/
def axis_step [Add F] (c : AxisSpec F S) (s : AxisWise F S) (x1 x2 : Buf F) (j : Nat)
    (grad : Buf F) : Buf F :=
  (List.range s.param_.length).foldl
    (fun g idx => write g idx (g idx + c.param_gradient idx s.param_ s.reparam_ (x1 j) (x2 j)))
    grad

def gradient [Zero F] [Add F] (c : AxisSpec F S) (s : AxisWise F S) (x1 x2 : Buf F)
    (grad : Buf F) : Buf F :=
  let g0 := zero_own s grad
  if s.param_.isEmpty then g0
  else
    let n := c.subspace.get_naxes s.subspace_
    (List.range n).foldl
      (fun g i => axis_step c s x1 x2 (c.subspace.get_axis s.subspace_ i) g) g0

end AxisWise

/-! ## The kernel tree -/

/-- A kernel object: an instance of a generated primitive class, or a `Sum` or `Product`
owning its two children `kernel1_` and `kernel2_`. -/
inductive Kernel (F M S : Type) where
  | stationary (c : StationarySpec F M) (s : Stationary F M) : Kernel F M S
  | axiswise (c : AxisSpec F S) (s : AxisWise F S) : Kernel F M S
  | Sum (kernel1_ kernel2_ : Kernel F M S) : Kernel F M S
  | Product (kernel1_ kernel2_ : Kernel F M S) : Kernel F M S

namespace Kernel

def size : Kernel F M S → Nat
  | stationary c s => Stationary.size c s
  | axiswise _ s => AxisWise.size s
  | Sum k1 k2 => k1.size + k2.size
  | Product k1 k2 => k1.size + k2.size

def get_ndim : Kernel F M S → Nat
  | stationary c s => Stationary.get_ndim c s
  | axiswise c s => AxisWise.get_ndim c s
  | Sum k1 _ => k1.get_ndim
  | Product k1 _ => k1.get_ndim

def get_parameter [Zero F] : Kernel F M S → Nat → F
  | stationary c s, i => Stationary.get_parameter c s i
  | axiswise _ s, i => AxisWise.get_parameter s i
  | Sum k1 k2, i =>
    let n := k1.size
    if i < n then k1.get_parameter i else k2.get_parameter (i - n)
  | Product k1 k2, i =>
    let n := k1.size
    if i < n then k1.get_parameter i else k2.get_parameter (i - n)

def set_parameter : Kernel F M S → Nat → F → Kernel F M S
  | stationary c s, i, v => stationary c (Stationary.set_parameter c s i v)
  | axiswise c s, i, v => axiswise c (AxisWise.set_parameter c s i v)
  | Sum k1 k2, i, v =>
    let n := k1.size
    if i < n then Sum (k1.set_parameter i v) k2 else Sum k1 (k2.set_parameter (i - n) v)
  | Product k1 k2, i, v =>
    let n := k1.size
    if i < n then Product (k1.set_parameter i v) k2
    else Product k1 (k2.set_parameter (i - n) v)

/-- On `Sum` and `Product` this is the empty body inherited from `Kernel`. -/
def set_metric_parameter : Kernel F M S → Nat → F → Kernel F M S
  | stationary c s, i, v => stationary c (Stationary.set_metric_parameter c s i v)
  | axiswise c s, i, v => axiswise c (AxisWise.set_metric_parameter s i v)
  | Sum k1 k2, _, _ => Sum k1 k2
  | Product k1 k2, _, _ => Product k1 k2

/-- On `Sum` and `Product` this is the empty body inherited from `Kernel`. -/
def set_axis : Kernel F M S → Nat → Nat → Kernel F M S
  | stationary c s, i, v => stationary c (Stationary.set_axis c s i v)
  | axiswise c s, i, v => axiswise c (AxisWise.set_axis c s i v)
  | Sum k1 k2, _, _ => Sum k1 k2
  | Product k1 k2, _, _ => Product k1 k2

def value [Zero F] [Add F] [Mul F] : Kernel F M S → Buf F → Buf F → F
  | stationary c s, x1, x2 => Stationary.value c s x1 x2
  | axiswise c s, x1, x2 => AxisWise.value c s x1 x2
  | Sum k1 k2, x1, x2 => k1.value x1 x2 + k2.value x1 x2
  | Product k1 k2, x1, x2 => k1.value x1 x2 * k2.value x1 x2

def gradient [Zero F] [Add F] [Mul F] : Kernel F M S → Buf F → Buf F → Buf F → Buf F
  | stationary c s, x1, x2, grad => Stationary.gradient c s x1 x2 grad
  | axiswise c s, x1, x2, grad => AxisWise.gradient c s x1 x2 grad
  | Sum k1 k2, x1, x2, grad =>
    let n := k1.size
    let g1 := k1.gradient x1 x2 grad
    store_at n g1 (k2.gradient x1 x2 (offset n g1))
  | Product k1 k2, x1, x2, grad =>
    let n1 := k1.size
    let n2 := (Product k1 k2).size
    let g1 := k1.gradient x1 x2 grad
    let g2 := store_at n1 g1 (k2.gradient x1 x2 (offset n1 g1))
    let v1 := k1.value x1 x2
    let v2 := k2.value x1 x2
    scale_range n1 n2 v1 (scale_range 0 n1 v2 g2)

/-- The leaf primitives of a tree, left to right. -/
def leaves : Kernel F M S → List (Kernel F M S)
  | stationary c s => [stationary c s]
  | axiswise c s => [axiswise c s]
  | Sum k1 k2 => k1.leaves ++ k2.leaves
  | Product k1 k2 => k1.leaves ++ k2.leaves

end Kernel

/-! ## Sequences of state-changing calls on a primitive -/

/-- A state-changing call a primitive can receive after construction. -/
inductive Call (F : Type) where
  | set_parameter (i : Nat) (v : F) : Call F
  | set_metric_parameter (i : Nat) (v : F) : Call F
  | set_axis (i v : Nat) : Call F

/-- The stationary object after one call. -/
def Stationary.call (c : StationarySpec F M) (s : Stationary F M) : Call F → Stationary F M
  | Call.set_parameter i v => Stationary.set_parameter c s i v
  | Call.set_metric_parameter i v => Stationary.set_metric_parameter c s i v
  | Call.set_axis i v => Stationary.set_axis c s i v

/-- The stationary object after a sequence of calls, first call first. -/
def Stationary.run (c : StationarySpec F M) (s : Stationary F M) (calls : List (Call F)) :
    Stationary F M :=
  calls.foldl (Stationary.call c) s

/-- The non-stationary object after one call. -/
def AxisWise.call (c : AxisSpec F S) (s : AxisWise F S) : Call F → AxisWise F S
  | Call.set_parameter i v => AxisWise.set_parameter c s i v
  | Call.set_metric_parameter i v => AxisWise.set_metric_parameter s i v
  | Call.set_axis i v => AxisWise.set_axis c s i v

/-- The non-stationary object after a sequence of calls, first call first. -/
def AxisWise.run (c : AxisSpec F S) (s : AxisWise F S) (calls : List (Call F)) :
    AxisWise F S :=
  calls.foldl (AxisWise.call c) s

/-- Every cached reparameter is its `get_reparam` formula at the current own parameters. -/
def Stationary.Fresh (c : StationarySpec F M) (s : Stationary F M) : Prop :=
  s.reparam_ = c.get_reparam.map (fun f => f s.param_)

/-- Every cached reparameter is its `get_reparam` formula at the current own parameters. -/
def AxisWise.Fresh (c : AxisSpec F S) (s : AxisWise F S) : Prop :=
  s.reparam_ = c.get_reparam.map (fun f => f s.param_)

/-! ## The algebraic expression a tree denotes -/

/-- Expressions over scalars built with `+` and `*`. -/
inductive Expr (F : Type) where
  | leaf (v : F) : Expr F
  | add (a b : Expr F) : Expr F
  | mul (a b : Expr F) : Expr F

/-- The scalar an expression stands for. -/
def Expr.eval [Add F] [Mul F] : Expr F → F
  | Expr.leaf v => v
  | Expr.add a b => a.eval + b.eval
  | Expr.mul a b => a.eval * b.eval

/-- The expression a tree denotes at `x1`, `x2`: the values of its leaf primitives,
combined with `+` at `Sum` nodes and `*` at `Product` nodes. -/
def Kernel.denote [Zero F] [Add F] [Mul F] (x1 x2 : Buf F) : Kernel F M S → Expr F
  | Kernel.stationary c s => Expr.leaf ((Kernel.stationary c s : Kernel F M S).value x1 x2)
  | Kernel.axiswise c s => Expr.leaf ((Kernel.axiswise c s : Kernel F M S).value x1 x2)
  | Kernel.Sum k1 k2 => Expr.add (k1.denote x1 x2) (k2.denote x1 x2)
  | Kernel.Product k1 k2 => Expr.mul (k1.denote x1 x2) (k2.denote x1 x2)

/-! ## Addition of `double` on integer values -/

/-- The multiple of `2 ^ e` nearest to `n`, the even multiple when `n` is half-way. -/
def round_half_even (e n : Nat) : Nat :=
  let q := n / 2 ^ e
  let r := n % 2 ^ e
  if 2 * r < 2 ^ e then q * 2 ^ e
  else if 2 ^ e < 2 * r then (q + 1) * 2 ^ e
  else if q % 2 = 0 then q * 2 ^ e else (q + 1) * 2 ^ e

/-- Search for the least `e` with `n < 2 ^ (53 + e)`, then round `n` to a multiple of
`2 ^ e`: the significand of the result has at most 53 bits. -/
def round53_from : Nat → Nat → Nat → Nat
  | 0, e, n => round_half_even e n
  | fuel + 1, e, n =>
    if n < 2 ^ (53 + e) then round_half_even e n else round53_from fuel (e + 1) n

/-- Round-to-nearest, ties-to-even, to the 53-bit significand of a `double`. Every finite
`double` is below `2 ^ 1024` in magnitude, so the search never runs out. -/
def round53 (n : Nat) : Nat := round53_from 2048 0 n

/-- A `double` whose value is an integer, held as that integer. -/
structure IntDouble where
  val : Int
deriving DecidableEq

/-- The `double` sum `a + b` of two integer-valued doubles: the exact sum, rounded.
Overflow to infinity is left out. -/
def IntDouble.add (a b : IntDouble) : IntDouble :=
  ⟨Int.sign (a.val + b.val) * (round53 (a.val + b.val).natAbs : Int)⟩

/-- The literal `0.0`. -/
@[instance] def IntDouble.instZero : Zero IntDouble := ⟨⟨0⟩⟩

/-- The operator `+` on `double`. -/
@[instance] def IntDouble.instAdd : Add IntDouble := ⟨IntDouble.add⟩

/-! ## Predicates used in the statements -/

/-- A metric whose `set_parameter`/`get_parameter` round-trip on its own indices and
whose `size()` is unchanged by `set_parameter` on its own indices. -/
def Metric.RoundTrips (mo : Metric F M) : Prop :=
  ∀ (m : M) (j : Nat) (v : F), j < mo.size m →
    mo.get_parameter (mo.set_parameter m j v) j = v ∧
    mo.size (mo.set_parameter m j v) = mo.size m

/-- Every stationary primitive of the tree is built over a metric that round-trips. -/
def Kernel.MetricsRoundTrip : Kernel F M S → Prop
  | Kernel.stationary c _ => c.metric.RoundTrips
  | Kernel.axiswise _ _ => True
  | Kernel.Sum k1 k2 => k1.MetricsRoundTrip ∧ k2.MetricsRoundTrip
  | Kernel.Product k1 k2 => k1.MetricsRoundTrip ∧ k2.MetricsRoundTrip

/-- Slot `i` of the gradient of `k` at `x1`, `x2` is the partial derivative of the value
of `k` with respect to its flat parameter `i`: the derivative at `t = get_parameter(i)` of
`t ↦ value(x1,x2)` after `set_parameter(i, t)`. -/
def Kernel.GradientIsDerivative (k : Kernel ℝ M S) (x1 x2 : Buf ℝ) : Prop :=
  ∀ (i : Nat) (grad : Buf ℝ), i < k.size →
    HasDerivAt (fun t => (k.set_parameter i t).value x1 x2) (k.gradient x1 x2 grad i)
      (k.get_parameter i)

/-- Every stationary primitive of the tree is built over a metric satisfying `P`. -/
def Kernel.EachMetric (P : Metric F M → Prop) : Kernel F M S → Prop
  | Kernel.stationary c _ => P c.metric
  | Kernel.axiswise _ _ => True
  | Kernel.Sum k1 k2 => k1.EachMetric P ∧ k2.EachMetric P
  | Kernel.Product k1 k2 => k1.EachMetric P ∧ k2.EachMetric P

/-- A metric whose `gradient` overwrites exactly its `size()` slots: the slots from
`size()` on are left as they were, and what the slots below `size()` hold afterwards does
not depend on what the memory held before. -/
def Metric.WritesItsSlots (mo : Metric F M) : Prop :=
  ∀ (m : M) (x1 x2 g : Buf F),
    (∀ i, mo.size m ≤ i → mo.gradient m x1 x2 g i = g i) ∧
    (∀ (h : Buf F) (i : Nat), i < mo.size m →
      mo.gradient m x1 x2 g i = mo.gradient m x1 x2 h i)

/-- A metric whose `size()` is unchanged by its `set_parameter` and by its `set_axis`. -/
def Metric.KeepsSize (mo : Metric F M) : Prop :=
  (∀ (m : M) (j : Nat) (v : F), mo.size (mo.set_parameter m j v) = mo.size m) ∧
  (∀ (m : M) (i a : Nat), mo.size (mo.set_axis m i a) = mo.size m)

/-- A metric whose `set_parameter` on one of its indices changes neither its `size()` nor
any other of its parameters. -/
def Metric.SetsOnlyAddressed (mo : Metric F M) : Prop :=
  ∀ (m : M) (a : Nat) (v : F), a < mo.size m →
    mo.size (mo.set_parameter m a v) = mo.size m ∧
    (∀ b, b < mo.size m → b ≠ a →
      mo.get_parameter (mo.set_parameter m a v) b = mo.get_parameter m b)

/-- Every node of a tree, the root first, then the nodes of child 1, then those of
child 2. -/
def Kernel.nodes : Kernel F M S → List (Kernel F M S)
  | Kernel.stationary c s => [Kernel.stationary c s]
  | Kernel.axiswise c s => [Kernel.axiswise c s]
  | Kernel.Sum k1 k2 => Kernel.Sum k1 k2 :: (k1.nodes ++ k2.nodes)
  | Kernel.Product k1 k2 => Kernel.Product k1 k2 :: (k1.nodes ++ k2.nodes)

/-- The sum, over the axes `axes` in order and starting from `0.0`, of `f` at the two
scalars of each axis. -/
def axis_sum [Zero F] [Add F] (f : F → F → F) (x1 x2 : Buf F) (axes : List Nat) : F :=
  axes.foldl (fun acc j => acc + f (x1 j) (x2 j)) 0

/-! ## Concrete objects used to instantiate the statements -/

namespace Example

/-- A metric class with a single parameter that scales the product of the first
coordinates. -/
def scaleMetric (F : Type) [One F] [Mul F] : Metric F F where
  construct := fun _ _ => 1
  value := fun m x1 x2 => m * (x1 0 * x2 0)
  gradient := fun _ x1 x2 grad => write grad 0 (x1 0 * x2 0)
  size := fun _ => 1
  get_ndim := fun _ => 1
  get_axis := fun _ i => i
  set_axis := fun m _ _ => m
  get_parameter := fun m _ => m
  set_parameter := fun m i v => if i = 0 then v else m

/-- A subspace as the list of its selected axes. -/
def listSubspace : Subspace (List Nat) where
  construct := fun _ naxes => List.range naxes
  get_naxes := fun l => l.length
  get_axis := fun l i => l.getD i 0
  get_ndim := fun l => l.length
  set_axis := fun l i v => l.set i v

/-- A stationary class with one own parameter `a` and one reparameter `a2 = a * a`:
the value is `a2 * r2`. -/
def quadSpec (F : Type) [Zero F] [One F] [Add F] [Mul F] : StationarySpec F F where
  metric := scaleMetric F
  get_reparam := [fun ps => ps.headD 0 * ps.headD 0]
  get_value := fun _ rs r2 => rs.headD 0 * r2
  param_gradient := fun _ ps _ r2 => (ps.headD 0 + ps.headD 0) * r2
  radial_gradient := fun _ rs _ => rs.headD 0

/-- A non-stationary class with two own parameters `a`, `b` and no reparameter:
the value on an axis is `a * x1 + b * x2`. -/
def linSpec (F : Type) [Zero F] [Add F] [Mul F] : AxisSpec F (List Nat) where
  subspace := listSubspace
  get_reparam := []
  get_value := fun ps _ x1 x2 => ps.headD 0 * x1 + ps.getD 1 0 * x2
  param_gradient := fun idx _ _ x1 x2 => if idx = 0 then x1 else x2

/-- An object of `quadSpec` constructed with own parameter `a` over two dimensions. -/
def quadK (F : Type) [Zero F] [One F] [Add F] [Mul F] (a : F) : Kernel F F (List Nat) :=
  Kernel.stationary (quadSpec F) (Stationary.construct (quadSpec F) [a] 2 2)

/-- An object of `linSpec` constructed with own parameters `a`, `b` over two dimensions. -/
def linK (F : Type) [Zero F] [Add F] [Mul F] (a b : F) : Kernel F F (List Nat) :=
  Kernel.axiswise (linSpec F) (AxisWise.construct (linSpec F) [a, b] 2 2)

/-- The point `(a, b)`. -/
def pt (a b : F) : Buf F := fun j => if j = 0 then a else b

/-- An object of `quadSpec` with `a = 3`. -/
def quad : Kernel Int Int (List Nat) := quadK Int 3

/-- An object of `linSpec` with `a = 5`, `b = 7`. -/
def lin : Kernel Int Int (List Nat) := linK Int 5 7

/-- The point `(2, 3)`. -/
def p1 : Buf Int := pt 2 3

/-- The point `(4, 1)`. -/
def p2 : Buf Int := pt 4 1

/-- A gradient buffer holding `-1` in every slot. -/
def g0 : Buf Int := fun _ => -1

end Example

/-! ## Lemmas on memories and generated loops -/

theorem write_apply (g : Buf F) (i j : Nat) (v : F) :
    write g i v j = if j = i then v else g j := rfl

theorem store_at_apply (n : Nat) (g sub : Buf F) (i : Nat) :
    store_at n g sub i = if i < n then g i else sub (i - n) := rfl

theorem offset_apply (n : Nat) (g : Buf F) (j : Nat) : offset n g j = g (n + j) := rfl

theorem scale_loop_apply [Mul F] (c : F) (fuel lo : Nat) (g : Buf F) (i : Nat) :
    scale_loop c fuel lo g i = if lo ≤ i ∧ i < lo + fuel then g i * c else g i := by
  induction fuel generalizing lo g with
  | zero =>
    have : ¬ (lo ≤ i ∧ i < lo) := by omega
    simp [scale_loop, this]
  | succ n ih =>
    rw [scale_loop, ih, write_apply]
    by_cases h1 : i = lo
    · subst h1
      have : ¬ (i + 1 ≤ i ∧ i < i + 1 + n) := by omega
      have h2 : i ≤ i ∧ i < i + (n + 1) := by omega
      simp [this, h2]
    · by_cases h2 : lo ≤ i ∧ i < lo + (n + 1)
      · have : lo + 1 ≤ i ∧ i < lo + 1 + n := by omega
        simp [this, h2, h1]
      · have : ¬ (lo + 1 ≤ i ∧ i < lo + 1 + n) := by omega
        simp [this, h2, h1]

theorem scale_range_apply [Mul F] (lo hi : Nat) (c : F) (g : Buf F) (i : Nat) :
    scale_range lo hi c g i = if lo ≤ i ∧ i < hi then g i * c else g i := by
  rw [scale_range, scale_loop_apply]
  by_cases h : lo ≤ i ∧ i < hi
  · have : lo ≤ i ∧ i < lo + (hi - lo) := by omega
    simp [h, this]
  · have : ¬ (lo ≤ i ∧ i < lo + (hi - lo)) := by omega
    simp [h, this]

/-- A loop of assignments `g[idx] = f idx` over `idx < n`. -/
theorem foldl_write_apply (f : Nat → F) (n : Nat) (g : Buf F) (i : Nat) :
    (List.range n).foldl (fun g idx => write g idx (f idx)) g i
      = if i < n then f i else g i := by
  induction n with
  | zero => simp
  | succ n ih =>
    rw [List.range_succ, List.foldl_append]
    simp only [List.foldl_cons, List.foldl_nil, write_apply, ih]
    by_cases h1 : i = n
    · subst h1; simp
    · by_cases h2 : i < n
      · have : i < n + 1 := by omega
        simp [h1, h2, this]
      · have : ¬ i < n + 1 := by omega
        simp [h1, h2, this]

theorem get_own_eq (ps : List F) (idx i : Nat) :
    get_own ps idx i = if idx ≤ i then ps[i - idx]? else none := by
  induction ps generalizing idx with
  | nil => simp [get_own]
  | cons p ps ih =>
    rw [get_own, ih]
    by_cases h1 : i = idx
    · subst h1; simp
    · by_cases h2 : idx ≤ i
      · have h3 : idx + 1 ≤ i := by omega
        have h4 : i - idx = (i - (idx + 1)) + 1 := by omega
        simp only [h1, h2, h3, if_true, if_false]
        rw [h4, List.getElem?_cons_succ]
      · have h3 : ¬ idx + 1 ≤ i := by omega
        simp [h1, h2, h3]

theorem get_own_zero (ps : List F) (i : Nat) : get_own ps 0 i = ps[i]? := by
  simp [get_own_eq]

theorem set_own_eq (ps : List F) (idx i : Nat) (v : F) :
    set_own ps idx i v
      = if idx ≤ i ∧ i - idx < ps.length then some (ps.set (i - idx) v) else none := by
  induction ps generalizing idx with
  | nil => simp [set_own]
  | cons p ps ih =>
    rw [set_own, ih]
    by_cases h1 : i = idx
    · subst h1; simp
    · by_cases h2 : idx ≤ i ∧ i - idx < (p :: ps).length
      · have h2b := h2
        simp only [List.length_cons] at h2b
        have h3 : idx + 1 ≤ i ∧ i - (idx + 1) < ps.length := by omega
        have h4 : i - idx = (i - (idx + 1)) + 1 := by omega
        simp only [h1, h2, h3, if_true, if_false, and_self, Option.map_some']
        rw [h4, List.set_cons_succ]
      · have h2b := h2
        simp only [List.length_cons] at h2b
        have h3 : ¬ (idx + 1 ≤ i ∧ i - (idx + 1) < ps.length) := by omega
        rw [if_neg h1, if_neg h3, if_neg h2]
        rfl

theorem set_own_zero (ps : List F) (i : Nat) (v : F) :
    set_own ps 0 i v = if i < ps.length then some (ps.set i v) else none := by
  simp [set_own_eq]

/-! ## Operator: parameter routing and size -/

/-- C1: on `Sum(k1,k2)` and on `Product(k1,k2)`, `get_parameter(i)` is
`k1.get_parameter(i)` for every `i < size(k1)` and `k2.get_parameter(i - size(k1))` for
every `i` with `size(k1) ≤ i < size()`. -/
theorem operator_get_parameter_routing [Zero F] (k1 k2 : Kernel F M S) (i : Nat) :
    (i < k1.size →
      (Kernel.Sum k1 k2).get_parameter i = k1.get_parameter i ∧
      (Kernel.Product k1 k2).get_parameter i = k1.get_parameter i) ∧
    (k1.size ≤ i → i < (Kernel.Sum k1 k2).size → i < (Kernel.Product k1 k2).size →
      (Kernel.Sum k1 k2).get_parameter i = k2.get_parameter (i - k1.size) ∧
      (Kernel.Product k1 k2).get_parameter i = k2.get_parameter (i - k1.size)) := by
  refine ⟨fun h => ?_, fun h _ _ => ?_⟩
  · simp [Kernel.get_parameter, h]
  · have h1 : ¬ i < k1.size := by omega
    simp [Kernel.get_parameter, h1]

theorem operator_get_parameter_routing_witness :
    ((Kernel.Sum Example.quad Example.lin).get_parameter 1 = Example.quad.get_parameter 1 ∧
      (Kernel.Product Example.quad Example.lin).get_parameter 1
        = Example.quad.get_parameter 1) ∧
    ((Kernel.Sum Example.quad Example.lin).get_parameter 3
        = Example.lin.get_parameter (3 - Example.quad.size) ∧
      (Kernel.Product Example.quad Example.lin).get_parameter 3
        = Example.lin.get_parameter (3 - Example.quad.size)) :=
  ⟨(operator_get_parameter_routing Example.quad Example.lin 1).1 (by decide),
   (operator_get_parameter_routing Example.quad Example.lin 3).2
      (by decide) (by decide) (by decide)⟩

/-- C2: `size()` of `Sum(k1,k2)` and of `Product(k1,k2)` is `size(k1) + size(k2)`, and
`size()` of any tree is the sum of `size()` over its leaf primitives. -/
theorem operator_size_additive (k1 k2 k : Kernel F M S) :
    (Kernel.Sum k1 k2).size = k1.size + k2.size ∧
    (Kernel.Product k1 k2).size = k1.size + k2.size ∧
    k.size = (k.leaves.map Kernel.size).sum := by
  refine ⟨rfl, rfl, ?_⟩
  induction k with
  | stationary c s => simp [Kernel.leaves]
  | axiswise c s => simp [Kernel.leaves]
  | Sum a b iha ihb => simp [Kernel.leaves, Kernel.size, iha, ihb]
  | Product a b iha ihb => simp [Kernel.leaves, Kernel.size, iha, ihb]

/-! ## Primitives: parameter addressing -/

theorem Stationary.get_parameter_own (c : StationarySpec F M) (s : Stationary F M) (i : Nat)
    (h : i < s.param_.length) : Stationary.get_parameter c s i = s.param_[i] := by
  simp [Stationary.get_parameter, get_own_zero, List.getElem?_eq_getElem h]

theorem Stationary.get_parameter_metric (c : StationarySpec F M) (s : Stationary F M)
    (i : Nat) (h : s.param_.length ≤ i) :
    Stationary.get_parameter c s i = c.metric.get_parameter s.metric_ (i - s.param_.length) := by
  have h1 : s.param_[i]? = none := List.getElem?_eq_none h
  simp [Stationary.get_parameter, get_own_zero, h1, Stationary.size_]

theorem Stationary.set_parameter_own (c : StationarySpec F M) (s : Stationary F M) (i : Nat)
    (v : F) (h : i < s.param_.length) :
    Stationary.set_parameter c s i v
      = Stationary.update_reparams c { s with param_ := s.param_.set i v } := by
  simp [Stationary.set_parameter, set_own_zero, h]

theorem Stationary.set_parameter_metric (c : StationarySpec F M) (s : Stationary F M)
    (i : Nat) (v : F) (h : s.param_.length ≤ i) :
    Stationary.set_parameter c s i v
      = { s with metric_ := c.metric.set_parameter s.metric_ (i - s.param_.length) v } := by
  have h1 : ¬ i < s.param_.length := by omega
  simp [Stationary.set_parameter, set_own_zero, h1, Stationary.size_]

theorem AxisWise.axis_get_parameter_own [Zero F] (s : AxisWise F S) (i : Nat)
    (h : i < s.param_.length) : AxisWise.get_parameter s i = s.param_[i] := by
  simp [AxisWise.get_parameter, get_own_zero, List.getElem?_eq_getElem h]

theorem AxisWise.axis_set_parameter_own (c : AxisSpec F S) (s : AxisWise F S) (i : Nat)
    (v : F) (h : i < s.param_.length) :
    AxisWise.set_parameter c s i v
      = AxisWise.update_reparams c { s with param_ := s.param_.set i v } := by
  simp [AxisWise.set_parameter, set_own_zero, h]

theorem AxisWise.set_parameter_out (c : AxisSpec F S) (s : AxisWise F S) (i : Nat)
    (v : F) (h : s.param_.length ≤ i) : AxisWise.set_parameter c s i v = s := by
  have h1 : ¬ i < s.param_.length := by omega
  simp [AxisWise.set_parameter, set_own_zero, h1]

/-! ## Set then get -/

theorem Kernel.size_set_parameter (k : Kernel F M S) (hk : k.MetricsRoundTrip) (i : Nat)
    (v : F) (hi : i < k.size) : (k.set_parameter i v).size = k.size := by
  induction k generalizing i with
  | stationary c s =>
    simp only [Kernel.set_parameter, Kernel.size, Stationary.size, Stationary.size_] at hi ⊢
    by_cases h : i < s.param_.length
    · simp [Stationary.set_parameter_own c s i v h, Stationary.update_reparams]
    · have h1 : s.param_.length ≤ i := by omega
      rw [Stationary.set_parameter_metric c s i v h1]
      have := (hk s.metric_ (i - s.param_.length) v (by omega)).2
      simp [this]
  | axiswise c s =>
    simp only [Kernel.set_parameter, Kernel.size, AxisWise.size, AxisWise.size_] at hi ⊢
    simp [AxisWise.axis_set_parameter_own c s i v hi, AxisWise.update_reparams]
  | Sum a b iha ihb =>
    simp only [Kernel.size] at hi
    by_cases h : i < a.size
    · simp [Kernel.set_parameter, h, Kernel.size, iha hk.1 i h]
    · simp [Kernel.set_parameter, h, Kernel.size, ihb hk.2 (i - a.size) (by omega)]
  | Product a b iha ihb =>
    simp only [Kernel.size] at hi
    by_cases h : i < a.size
    · simp [Kernel.set_parameter, h, Kernel.size, iha hk.1 i h]
    · simp [Kernel.set_parameter, h, Kernel.size, ihb hk.2 (i - a.size) (by omega)]

theorem Example.scaleMetric_roundTrips : (Example.scaleMetric Int).RoundTrips := by
  intro m j v hj
  have h0 : j = 0 := by
    simp only [Example.scaleMetric] at hj
    omega
  subst h0
  simp [Example.scaleMetric]

/-- C3: on a tree whose metrics round-trip, for every `i < size()` and every `v`,
`get_parameter(i)` after `set_parameter(i, v)` on the root is `v`. -/
theorem set_then_get_roundtrip [Zero F] (k : Kernel F M S) (hk : k.MetricsRoundTrip)
    (i : Nat) (v : F) (hi : i < k.size) :
    (k.set_parameter i v).get_parameter i = v := by
  induction k generalizing i with
  | stationary c s =>
    simp only [Kernel.set_parameter, Kernel.get_parameter, Kernel.size, Stationary.size,
      Stationary.size_] at hi ⊢
    by_cases h : i < s.param_.length
    · rw [Stationary.set_parameter_own c s i v h, Stationary.get_parameter_own]
      · simp [Stationary.update_reparams]
      · simpa [Stationary.update_reparams] using h
    · have h1 : s.param_.length ≤ i := by omega
      rw [Stationary.set_parameter_metric c s i v h1, Stationary.get_parameter_metric c _ i (by simpa using h1)]
      exact (hk s.metric_ (i - s.param_.length) v (by omega)).1
  | axiswise c s =>
    simp only [Kernel.set_parameter, Kernel.get_parameter, Kernel.size, AxisWise.size,
      AxisWise.size_] at hi ⊢
    rw [AxisWise.axis_set_parameter_own c s i v hi, AxisWise.axis_get_parameter_own]
    · simp [AxisWise.update_reparams]
    · simpa [AxisWise.update_reparams] using hi
  | Sum a b iha ihb =>
    simp only [Kernel.size] at hi
    by_cases h : i < a.size
    · have hs := Kernel.size_set_parameter a hk.1 i v h
      simp [Kernel.set_parameter, Kernel.get_parameter, h, hs, iha hk.1 i h]
    · simp [Kernel.set_parameter, Kernel.get_parameter, h, ihb hk.2 (i - a.size) (by omega)]
  | Product a b iha ihb =>
    simp only [Kernel.size] at hi
    by_cases h : i < a.size
    · have hs := Kernel.size_set_parameter a hk.1 i v h
      simp [Kernel.set_parameter, Kernel.get_parameter, h, hs, iha hk.1 i h]
    · simp [Kernel.set_parameter, Kernel.get_parameter, h, ihb hk.2 (i - a.size) (by omega)]

theorem set_then_get_roundtrip_witness :
    ((Kernel.Sum (Kernel.Product Example.quad Example.lin) Example.quad).set_parameter 4
      11).get_parameter 4 = 11 :=
  set_then_get_roundtrip (Kernel.Sum (Kernel.Product Example.quad Example.lin) Example.quad)
    ⟨⟨Example.scaleMetric_roundTrips, trivial⟩, Example.scaleMetric_roundTrips⟩ 4 11
    (by decide)

/-! ## Sum and Product: value and gradient -/

/-- C4: after `Product(k1,k2).gradient(x1,x2,grad)`, slot `i < size(k1)` holds slot `i`
of `k1`'s gradient times `k2.value(x1,x2)`, and slot `i` with `size(k1) ≤ i < size()`
holds slot `i - size(k1)` of `k2`'s gradient times `k1.value(x1,x2)`. -/
theorem product_gradient_slots [Zero F] [Add F] [Mul F] (k1 k2 : Kernel F M S)
    (x1 x2 grad : Buf F) (i : Nat) :
    (i < k1.size →
      (Kernel.Product k1 k2).gradient x1 x2 grad i
        = k1.gradient x1 x2 grad i * k2.value x1 x2) ∧
    (k1.size ≤ i → i < (Kernel.Product k1 k2).size →
      (Kernel.Product k1 k2).gradient x1 x2 grad i
        = k2.gradient x1 x2 (offset k1.size (k1.gradient x1 x2 grad)) (i - k1.size)
            * k1.value x1 x2) := by
  refine ⟨fun h => ?_, fun h hi => ?_⟩
  · have h1 : ¬ k1.size ≤ i := by omega
    simp [Kernel.gradient, scale_range_apply, store_at_apply, h, h1]
  · have h1 : ¬ i < k1.size := by omega
    simp [Kernel.gradient, scale_range_apply, store_at_apply, h, h1, hi]

theorem product_gradient_slots_witness :
    (Kernel.Product Example.quad Example.lin).gradient Example.p1 Example.p2 Example.g0 1
        = Example.quad.gradient Example.p1 Example.p2 Example.g0 1
            * Example.lin.value Example.p1 Example.p2 ∧
    (Kernel.Product Example.quad Example.lin).gradient Example.p1 Example.p2 Example.g0 3
        = Example.lin.gradient Example.p1 Example.p2
            (offset Example.quad.size (Example.quad.gradient Example.p1 Example.p2 Example.g0))
            (3 - Example.quad.size)
            * Example.quad.value Example.p1 Example.p2 :=
  ⟨(product_gradient_slots Example.quad Example.lin Example.p1 Example.p2 Example.g0 1).1
      (by decide),
   (product_gradient_slots Example.quad Example.lin Example.p1 Example.p2 Example.g0 3).2
      (by decide) (by decide)⟩

/-- C5: after `Sum(k1,k2).gradient(x1,x2,grad)`, slot `i < size(k1)` holds slot `i` of
`k1`'s gradient and slot `i` with `size(k1) ≤ i < size()` holds slot `i - size(k1)` of
`k2`'s gradient, unscaled and with nothing added. -/
theorem sum_gradient_slots [Zero F] [Add F] [Mul F] (k1 k2 : Kernel F M S)
    (x1 x2 grad : Buf F) (i : Nat) :
    (i < k1.size →
      (Kernel.Sum k1 k2).gradient x1 x2 grad i = k1.gradient x1 x2 grad i) ∧
    (k1.size ≤ i → i < (Kernel.Sum k1 k2).size →
      (Kernel.Sum k1 k2).gradient x1 x2 grad i
        = k2.gradient x1 x2 (offset k1.size (k1.gradient x1 x2 grad)) (i - k1.size)) := by
  refine ⟨fun h => ?_, fun h _ => ?_⟩
  · simp [Kernel.gradient, store_at_apply, h]
  · have h1 : ¬ i < k1.size := by omega
    simp [Kernel.gradient, store_at_apply, h1]

theorem sum_gradient_slots_witness :
    (Kernel.Sum Example.quad Example.lin).gradient Example.p1 Example.p2 Example.g0 0
        = Example.quad.gradient Example.p1 Example.p2 Example.g0 0 ∧
    (Kernel.Sum Example.quad Example.lin).gradient Example.p1 Example.p2 Example.g0 2
        = Example.lin.gradient Example.p1 Example.p2
            (offset Example.quad.size (Example.quad.gradient Example.p1 Example.p2 Example.g0))
            (2 - Example.quad.size) :=
  ⟨(sum_gradient_slots Example.quad Example.lin Example.p1 Example.p2 Example.g0 0).1
      (by decide),
   (sum_gradient_slots Example.quad Example.lin Example.p1 Example.p2 Example.g0 2).2
      (by decide) (by decide)⟩

/-- C6: `Sum(k1,k2).value(x1,x2)` is `k1.value(x1,x2) + k2.value(x1,x2)`,
`Product(k1,k2).value(x1,x2)` is `k1.value(x1,x2) * k2.value(x1,x2)`, and the value of any
tree is the value of the expression it denotes: its leaves' values combined with `+` at
`Sum` nodes and `*` at `Product` nodes. -/
theorem value_is_denoted_expression [Zero F] [Add F] [Mul F] (k1 k2 k : Kernel F M S)
    (x1 x2 : Buf F) :
    (Kernel.Sum k1 k2).value x1 x2 = k1.value x1 x2 + k2.value x1 x2 ∧
    (Kernel.Product k1 k2).value x1 x2 = k1.value x1 x2 * k2.value x1 x2 ∧
    k.value x1 x2 = (k.denote x1 x2).eval := by
  refine ⟨rfl, rfl, ?_⟩
  induction k with
  | stationary c s => rfl
  | axiswise c s => rfl
  | Sum a b iha ihb => simp only [Kernel.value, Kernel.denote, Expr.eval, iha, ihb]
  | Product a b iha ihb => simp only [Kernel.value, Kernel.denote, Expr.eval, iha, ihb]

/-! ## Gradient layout over the reals -/

theorem Example.quadK_gradientIsDerivative :
    (Example.quadK ℝ 3).GradientIsDerivative (Example.pt 2 3) (Example.pt 4 1) := by
  intro i grad hi
  have hi2 : i < 2 := by
    simpa [Example.quadK, Kernel.size, Stationary.size, Stationary.size_,
      Stationary.construct, Stationary.update_reparams, Example.quadSpec,
      Example.scaleMetric] using hi
  interval_cases i
  · have h := ((hasDerivAt_id (3 : ℝ)).mul (hasDerivAt_id (3 : ℝ))).mul_const (2 * 4 : ℝ)
    simp only [id, one_mul, mul_one] at h
    simpa [Example.quadK, Kernel.set_parameter, Kernel.get_parameter, Kernel.gradient,
      Kernel.value, Stationary.set_parameter, Stationary.get_parameter, Stationary.gradient,
      Stationary.value, Stationary.construct, Stationary.update_reparams,
      Stationary.own_gradient, Stationary.size, Stationary.size_, Example.quadSpec,
      Example.scaleMetric, Example.pt, set_own, get_own, scale_range_apply, store_at_apply,
      write_apply, offset_apply, List.range_succ] using h
  · have h := ((hasDerivAt_id (1 : ℝ)).mul_const (2 * 4 : ℝ)).const_mul (3 * 3 : ℝ)
    simp only [id, one_mul] at h
    rw [mul_comm (3 * 3 : ℝ) (2 * 4)] at h
    simpa [Example.quadK, Kernel.set_parameter, Kernel.get_parameter, Kernel.gradient,
      Kernel.value, Stationary.set_parameter, Stationary.get_parameter, Stationary.gradient,
      Stationary.value, Stationary.construct, Stationary.update_reparams,
      Stationary.own_gradient, Stationary.size, Stationary.size_, Example.quadSpec,
      Example.scaleMetric, Example.pt, set_own, get_own, scale_range_apply, store_at_apply,
      write_apply, offset_apply, List.range_succ] using h

theorem Example.linK_gradientIsDerivative :
    (Example.linK ℝ 5 7).GradientIsDerivative (Example.pt 2 3) (Example.pt 4 1) := by
  intro i grad hi
  have hi2 : i < 2 := by
    simpa [Example.linK, Kernel.size, AxisWise.size, AxisWise.size_,
      AxisWise.construct, AxisWise.update_reparams] using hi
  interval_cases i
  · have h := (((hasDerivAt_id (5 : ℝ)).mul_const (2 : ℝ)).add_const (7 * 4 : ℝ)).add
      (((hasDerivAt_id (5 : ℝ)).mul_const (3 : ℝ)).add_const (7 : ℝ))
    simp only [id_eq, one_mul] at h
    simp [Example.linK, Kernel.set_parameter, Kernel.get_parameter, Kernel.gradient,
      Kernel.value, AxisWise.set_parameter, AxisWise.get_parameter, AxisWise.gradient,
      AxisWise.value, AxisWise.construct, AxisWise.update_reparams,
      AxisWise.zero_own, AxisWise.axis_step, AxisWise.size, AxisWise.size_, Example.linSpec,
      Example.listSubspace, Example.pt, set_own, get_own,
      write_apply, List.range_succ]
    exact h
  · have h := (((hasDerivAt_id (7 : ℝ)).mul_const (4 : ℝ)).const_add (5 * 2 : ℝ)).add
      ((hasDerivAt_id (7 : ℝ)).const_add (5 * 3 : ℝ))
    simp only [id_eq, one_mul] at h
    simp [Example.linK, Kernel.set_parameter, Kernel.get_parameter, Kernel.gradient,
      Kernel.value, AxisWise.set_parameter, AxisWise.get_parameter, AxisWise.gradient,
      AxisWise.value, AxisWise.construct, AxisWise.update_reparams,
      AxisWise.zero_own, AxisWise.axis_step, AxisWise.size, AxisWise.size_, Example.linSpec,
      Example.listSubspace, Example.pt, set_own, get_own,
      write_apply, List.range_succ]
    exact h

/-- C7: over the reals, on a tree each of whose leaves has, in every slot `j` of its
gradient, the partial derivative of its value with respect to its parameter `j`, slot
`i < size()` of the root's gradient is the partial derivative of the root's value with
respect to the root's flat parameter `i`: the derivative at `t = get_parameter(i)` of
`t ↦ value(x1,x2)` after `set_parameter(i, t)`. -/
theorem gradient_mirrors_parameter_layout (k : Kernel ℝ M S) (x1 x2 : Buf ℝ)
    (hl : ∀ l ∈ k.leaves, l.GradientIsDerivative x1 x2)
    (i : Nat) (grad : Buf ℝ) (hi : i < k.size) :
    HasDerivAt (fun t => (k.set_parameter i t).value x1 x2) (k.gradient x1 x2 grad i)
      (k.get_parameter i) := by
  induction k generalizing i grad with
  | stationary c s => exact hl _ (by simp [Kernel.leaves]) i grad hi
  | axiswise c s => exact hl _ (by simp [Kernel.leaves]) i grad hi
  | Sum a b iha ihb =>
    have ha := fun j g hj => iha (fun l h => hl l (by simp [Kernel.leaves, h])) j g hj
    have hb := fun j g hj => ihb (fun l h => hl l (by simp [Kernel.leaves, h])) j g hj
    simp only [Kernel.size] at hi
    by_cases h : i < a.size
    · have := (ha i grad h).add_const (b.value x1 x2)
      simpa [Kernel.set_parameter, Kernel.get_parameter, Kernel.gradient, Kernel.value,
        store_at_apply, h] using this
    · have := (hb (i - a.size) (offset a.size (a.gradient x1 x2 grad)) (by omega)).const_add
        (a.value x1 x2)
      simpa [Kernel.set_parameter, Kernel.get_parameter, Kernel.gradient, Kernel.value,
        store_at_apply, h] using this
  | Product a b iha ihb =>
    have ha := fun j g hj => iha (fun l h => hl l (by simp [Kernel.leaves, h])) j g hj
    have hb := fun j g hj => ihb (fun l h => hl l (by simp [Kernel.leaves, h])) j g hj
    simp only [Kernel.size] at hi
    by_cases h : i < a.size
    · have h1 : ¬ a.size ≤ i := by omega
      have := (ha i grad h).mul_const (b.value x1 x2)
      simpa [Kernel.set_parameter, Kernel.get_parameter, Kernel.gradient, Kernel.value,
        store_at_apply, scale_range_apply, h, h1] using this
    · have h1 : a.size ≤ i := by omega
      have := (hb (i - a.size) (offset a.size (a.gradient x1 x2 grad)) (by omega)).const_mul
        (a.value x1 x2)
      rw [mul_comm] at this
      simpa [Kernel.set_parameter, Kernel.get_parameter, Kernel.gradient, Kernel.value,
        store_at_apply, scale_range_apply, h, h1, hi, Kernel.size] using this

theorem gradient_mirrors_parameter_layout_witness :
    HasDerivAt
      (fun t => ((Kernel.Product (Example.quadK ℝ 3) (Example.linK ℝ 5 7)).set_parameter 2
        t).value (Example.pt 2 3) (Example.pt 4 1))
      ((Kernel.Product (Example.quadK ℝ 3) (Example.linK ℝ 5 7)).gradient (Example.pt 2 3)
        (Example.pt 4 1) (fun _ => 0) 2)
      ((Kernel.Product (Example.quadK ℝ 3) (Example.linK ℝ 5 7)).get_parameter 2) :=
  gradient_mirrors_parameter_layout (Kernel.Product (Example.quadK ℝ 3) (Example.linK ℝ 5 7))
    (Example.pt 2 3) (Example.pt 4 1)
    (by
      intro l hl
      simp only [Kernel.leaves, Example.quadK, Example.linK, List.cons_append,
        List.nil_append, List.mem_cons, List.mem_singleton, List.not_mem_nil, or_false] at hl
      rcases hl with rfl | rfl
      · exact Example.quadK_gradientIsDerivative
      · exact Example.linK_gradientIsDerivative)
    2 (fun _ => 0)
    (by
      simp [Example.quadK, Example.linK, Kernel.size, Stationary.size, Stationary.size_,
        AxisWise.size, AxisWise.size_, Stationary.construct, Stationary.update_reparams,
        AxisWise.construct, AxisWise.update_reparams])

/-! ## Stationary primitive: gradient, reparameters, addressing -/

theorem Stationary.own_gradient_apply (c : StationarySpec F M) (s : Stationary F M) (r2 : F)
    (grad : Buf F) (i : Nat) :
    Stationary.own_gradient c s r2 grad i
      = if i < s.param_.length then c.param_gradient i s.param_ s.reparam_ r2 else grad i := by
  unfold Stationary.own_gradient
  exact foldl_write_apply (fun idx => c.param_gradient idx s.param_ s.reparam_ r2) _ grad i

theorem Stationary.offset_own_gradient (c : StationarySpec F M) (s : Stationary F M) (r2 : F)
    (grad : Buf F) :
    offset s.size_ (Stationary.own_gradient c s r2 grad) = offset s.size_ grad := by
  funext j
  have h : ¬ s.param_.length + j < s.param_.length := by omega
  simp [offset_apply, Stationary.own_gradient_apply, Stationary.size_, h]

/-- C8: after `gradient(x1,x2,grad)` on a stationary primitive with `k = size_` own
parameters, slot `i < k` holds the `i`-th own-parameter formula at the current own
parameters, the current reparameters and `r2 = Metric.value(x1,x2)`; slot `k + j` with
`j < size(Metric)` holds slot `j` of what `Metric.gradient(x1,x2,&grad[k])` wrote, times
`radial_gradient` at the same arguments; and `value(x1,x2)` is `get_value` at the same
`r2`. -/
theorem stationary_gradient_slots [Mul F] (c : StationarySpec F M) (s : Stationary F M)
    (x1 x2 grad : Buf F) :
    (∀ i, i < s.size_ →
      Stationary.gradient c s x1 x2 grad i
        = c.param_gradient i s.param_ s.reparam_ (c.metric.value s.metric_ x1 x2)) ∧
    (∀ j, j < c.metric.size s.metric_ →
      Stationary.gradient c s x1 x2 grad (s.size_ + j)
        = c.metric.gradient s.metric_ x1 x2 (offset s.size_ grad) j
            * c.radial_gradient s.param_ s.reparam_ (c.metric.value s.metric_ x1 x2)) ∧
    Stationary.value c s x1 x2
      = c.get_value s.param_ s.reparam_ (c.metric.value s.metric_ x1 x2) := by
  refine ⟨fun i hi => ?_, fun j hj => ?_, rfl⟩
  · have h1 : ¬ s.size_ ≤ i := by omega
    simp only [Stationary.size_] at hi h1
    simp [Stationary.gradient, scale_range_apply, store_at_apply,
      Stationary.own_gradient_apply, Stationary.size_, hi, h1]
  · have h1 : s.size_ + j < Stationary.size c s := by
      simp only [Stationary.size]
      omega
    simp [Stationary.gradient, scale_range_apply, store_at_apply,
      Stationary.offset_own_gradient, h1]

theorem stationary_gradient_slots_witness :
    Stationary.gradient (Example.quadSpec Int)
        (Stationary.construct (Example.quadSpec Int) [3] 2 2) Example.p1 Example.p2
        Example.g0 0
      = (3 + 3) * 8 ∧
    Stationary.gradient (Example.quadSpec Int)
        (Stationary.construct (Example.quadSpec Int) [3] 2 2) Example.p1 Example.p2
        Example.g0 1
      = 8 * 9 :=
  ⟨(stationary_gradient_slots (Example.quadSpec Int)
      (Stationary.construct (Example.quadSpec Int) [3] 2 2) Example.p1 Example.p2
      Example.g0).1 0 (by decide),
   (stationary_gradient_slots (Example.quadSpec Int)
      (Stationary.construct (Example.quadSpec Int) [3] 2 2) Example.p1 Example.p2
      Example.g0).2.1 0 (by decide)⟩

theorem Stationary.fresh_call (c : StationarySpec F M) (s : Stationary F M) (op : Call F)
    (h : s.Fresh c) : (Stationary.call c s op).Fresh c := by
  cases op with
  | set_parameter i v =>
    simp only [Stationary.call]
    by_cases hi : i < s.param_.length
    · rw [Stationary.set_parameter_own c s i v hi]
      rfl
    · rw [Stationary.set_parameter_metric c s i v (by omega)]
      exact h
  | set_metric_parameter i v => exact h
  | set_axis i v => exact h

theorem Stationary.fresh_run (c : StationarySpec F M) (s : Stationary F M)
    (calls : List (Call F)) (h : s.Fresh c) : (Stationary.run c s calls).Fresh c := by
  induction calls generalizing s with
  | nil => exact h
  | cons op rest ih => exact ih _ (Stationary.fresh_call c s op h)

theorem AxisWise.axis_fresh_call (c : AxisSpec F S) (s : AxisWise F S) (op : Call F)
    (h : s.Fresh c) : (AxisWise.call c s op).Fresh c := by
  cases op with
  | set_parameter i v =>
    simp only [AxisWise.call]
    by_cases hi : i < s.param_.length
    · rw [AxisWise.axis_set_parameter_own c s i v hi]
      rfl
    · rw [AxisWise.set_parameter_out c s i v (by omega)]
      exact h
  | set_metric_parameter i v => exact h
  | set_axis i v => exact h

theorem AxisWise.axis_fresh_run (c : AxisSpec F S) (s : AxisWise F S)
    (calls : List (Call F)) (h : s.Fresh c) : (AxisWise.run c s calls).Fresh c := by
  induction calls generalizing s with
  | nil => exact h
  | cons op rest ih => exact ih _ (AxisWise.axis_fresh_call c s op h)

/-- C9: in every state a primitive reaches from its constructor by `set_parameter`,
`set_metric_parameter` and `set_axis` calls, each cached reparameter is its `get_reparam`
formula at the current own parameters; and `set_parameter(i, v)` with `i < k` leaves the
object with own parameter `i` equal to `v` and the reparameters recomputed from the new
own parameters, which is the state `value` and `gradient` then read. -/
theorem reparams_never_stale (cs : StationarySpec F M) (ca : AxisSpec F S)
    (ps pa : List F) (ndim naxes : Nat) (calls : List (Call F))
    (s : Stationary F M) (a : AxisWise F S) (i : Nat) (v : F) :
    (Stationary.run cs (Stationary.construct cs ps ndim naxes) calls).Fresh cs ∧
    (AxisWise.run ca (AxisWise.construct ca pa ndim naxes) calls).Fresh ca ∧
    (i < s.size_ →
      Stationary.set_parameter cs s i v
        = { metric_ := s.metric_, param_ := s.param_.set i v,
            reparam_ := cs.get_reparam.map (fun f => f (s.param_.set i v)) }) ∧
    (i < a.size_ →
      AxisWise.set_parameter ca a i v
        = { subspace_ := a.subspace_, param_ := a.param_.set i v,
            reparam_ := ca.get_reparam.map (fun f => f (a.param_.set i v)) }) := by
  refine ⟨Stationary.fresh_run cs _ calls rfl, AxisWise.axis_fresh_run ca _ calls rfl, ?_, ?_⟩
  · intro hi
    rw [Stationary.set_parameter_own cs s i v hi]
    rfl
  · intro hi
    rw [AxisWise.axis_set_parameter_own ca a i v hi]
    rfl

theorem reparams_never_stale_witness :
    Stationary.set_parameter (Example.quadSpec Int)
        (Stationary.construct (Example.quadSpec Int) [3] 2 2) 0 5
      = { metric_ := 1, param_ := [5], reparam_ := [25] } ∧
    AxisWise.set_parameter (Example.linSpec Int)
        (AxisWise.construct (Example.linSpec Int) [5, 7] 2 2) 1 4
      = { subspace_ := [0, 1], param_ := [5, 4], reparam_ := [] } :=
  ⟨(reparams_never_stale (Example.quadSpec Int) (Example.linSpec Int) [3] [5, 7] 2 2
      [Call.set_parameter 0 2, Call.set_axis 0 1]
      (Stationary.construct (Example.quadSpec Int) [3] 2 2)
      (AxisWise.construct (Example.linSpec Int) [5, 7] 2 2) 0 5).2.2.1 (by decide),
   (reparams_never_stale (Example.quadSpec Int) (Example.linSpec Int) [3] [5, 7] 2 2
      [Call.set_parameter 0 2, Call.set_axis 0 1]
      (Stationary.construct (Example.quadSpec Int) [3] 2 2)
      (AxisWise.construct (Example.linSpec Int) [5, 7] 2 2) 1 4).2.2.2 (by decide)⟩

/-- C10: on a stationary primitive with `k = size_` own parameters, `get_parameter(i)` is
the `i`-th own parameter for every `i < k` and `Metric.get_parameter(i - k)` for every `i`
with `k ≤ i < k + size(Metric)`; and `size()` is `k + size(Metric)`. -/
theorem stationary_parameter_layout (c : StationarySpec F M) (s : Stationary F M) :
    (∀ (i : Nat) (h : i < s.size_),
      Stationary.get_parameter c s i = s.param_.get ⟨i, h⟩) ∧
    (∀ i, s.size_ ≤ i → i < s.size_ + c.metric.size s.metric_ →
      Stationary.get_parameter c s i = c.metric.get_parameter s.metric_ (i - s.size_)) ∧
    Stationary.size c s = s.size_ + c.metric.size s.metric_ := by
  refine ⟨fun i h => Stationary.get_parameter_own c s i h, fun i h _ => ?_, ?_⟩
  · exact Stationary.get_parameter_metric c s i h
  · simp [Stationary.size, Nat.add_comm]

theorem stationary_parameter_layout_witness :
    Stationary.get_parameter (Example.quadSpec Int)
        (Stationary.construct (Example.quadSpec Int) [3] 2 2) 0 = 3 ∧
    Stationary.get_parameter (Example.quadSpec Int)
        (Stationary.construct (Example.quadSpec Int) [3] 2 2) 1
      = (Example.quadSpec Int).metric.get_parameter
          (Stationary.construct (Example.quadSpec Int) [3] 2 2).metric_ (1 - 1) :=
  ⟨(stationary_parameter_layout (Example.quadSpec Int)
      (Stationary.construct (Example.quadSpec Int) [3] 2 2)).1 0 (by decide),
   (stationary_parameter_layout (Example.quadSpec Int)
      (Stationary.construct (Example.quadSpec Int) [3] 2 2)).2.1 1 (by decide) (by decide)⟩

/-! ## Non-stationary primitive: value over the selected axes -/

/-- C12: a non-stationary primitive whose subspace selects zero axes (`get_naxes()` is 0)
has `value(x1,x2)` equal to `0.0`, whatever the inputs and the parameter values. -/
theorem nonstationary_value_zero_axes [Zero F] [Add F] (c : AxisSpec F S)
    (s : AxisWise F S) (x1 x2 : Buf F) (h : c.subspace.get_naxes s.subspace_ = 0) :
    AxisWise.value c s x1 x2 = 0 := by
  simp [AxisWise.value, h]

theorem nonstationary_value_zero_axes_witness :
    AxisWise.value (Example.linSpec Int)
      { subspace_ := [], param_ := [5, 7], reparam_ := [] } Example.p1 Example.p2 = 0 :=
  nonstationary_value_zero_axes (Example.linSpec Int)
    { subspace_ := [], param_ := [5, 7], reparam_ := [] } Example.p1 Example.p2 (by decide)

/-! ## Non-stationary primitive: gradient -/

/-- A loop of updates `g[idx] = h idx (g[idx])` over `idx < n`. -/
theorem foldl_update_apply (h : Nat → F → F) (n : Nat) (g : Buf F) (i : Nat) :
    (List.range n).foldl (fun g idx => write g idx (h idx (g idx))) g i
      = if i < n then h i (g i) else g i := by
  induction n generalizing i with
  | zero => simp
  | succ n ih =>
    rw [List.range_succ, List.foldl_append]
    simp only [List.foldl_cons, List.foldl_nil, write_apply, ih]
    by_cases h1 : i = n
    · subst h1; simp
    · by_cases h2 : i < n
      · have : i < n + 1 := by omega
        simp [h1, h2, this]
      · have : ¬ i < n + 1 := by omega
        simp [h1, h2, this]

theorem AxisWise.zero_own_apply [Zero F] (s : AxisWise F S) (grad : Buf F) (i : Nat) :
    AxisWise.zero_own s grad i = if i < s.param_.length then 0 else grad i := by
  unfold AxisWise.zero_own
  exact foldl_write_apply (fun _ => (0 : F)) _ grad i

theorem AxisWise.axis_step_apply [Add F] (c : AxisSpec F S) (s : AxisWise F S)
    (x1 x2 : Buf F) (j : Nat) (grad : Buf F) (i : Nat) :
    AxisWise.axis_step c s x1 x2 j grad i
      = if i < s.param_.length
        then grad i + c.param_gradient i s.param_ s.reparam_ (x1 j) (x2 j)
        else grad i := by
  unfold AxisWise.axis_step
  exact foldl_update_apply
    (fun idx y => y + c.param_gradient idx s.param_ s.reparam_ (x1 j) (x2 j)) _ grad i

theorem AxisWise.axes_loop_apply [Add F] (c : AxisSpec F S) (s : AxisWise F S)
    (x1 x2 : Buf F) (ax : Nat → Nat) (l : List Nat) (grad : Buf F) (i : Nat) :
    l.foldl (fun g a => AxisWise.axis_step c s x1 x2 (ax a) g) grad i
      = if i < s.param_.length
        then l.foldl (fun acc a =>
          acc + c.param_gradient i s.param_ s.reparam_ (x1 (ax a)) (x2 (ax a))) (grad i)
        else grad i := by
  induction l generalizing grad with
  | nil => simp
  | cons a l ih =>
    simp only [List.foldl_cons]
    rw [ih, AxisWise.axis_step_apply]
    by_cases h : i < s.param_.length
    · simp [h]
    · simp [h]

theorem AxisWise.gradient_apply [Zero F] [Add F] (c : AxisSpec F S) (s : AxisWise F S)
    (x1 x2 grad : Buf F) (i : Nat) :
    AxisWise.gradient c s x1 x2 grad i
      = if i < s.param_.length
        then axis_sum (c.param_gradient i s.param_ s.reparam_) x1 x2
          ((List.range (c.subspace.get_naxes s.subspace_)).map
            (c.subspace.get_axis s.subspace_))
        else grad i := by
  unfold AxisWise.gradient
  by_cases he : s.param_.isEmpty = true
  · have h0 : s.param_.length = 0 := by
      simpa [List.isEmpty_iff] using he
    simp [he, AxisWise.zero_own_apply, h0]
  · simp only [he, if_false, Bool.false_eq_true]
    rw [AxisWise.axes_loop_apply, AxisWise.zero_own_apply]
    by_cases h : i < s.param_.length
    · simp [h, axis_sum, List.foldl_map]
    · simp [h]

/-- C16: after `gradient(x1,x2,grad)` on a non-stationary primitive with `k = size_` own
parameters, slot `i < k` holds the sum, over the selected axes `j` in subspace order and
starting from `0.0`, of the `i`-th own-parameter formula at the current own parameters,
the current reparameters and the scalars `x1[j]`, `x2[j]`; the slot holds `0.0` when the
subspace selects zero axes. -/
theorem nonstationary_gradient_slots [Zero F] [Add F] (c : AxisSpec F S) (s : AxisWise F S)
    (x1 x2 grad : Buf F) (i : Nat) (hi : i < s.size_) :
    AxisWise.gradient c s x1 x2 grad i
      = axis_sum (c.param_gradient i s.param_ s.reparam_) x1 x2
          ((List.range (c.subspace.get_naxes s.subspace_)).map
            (c.subspace.get_axis s.subspace_)) ∧
    (c.subspace.get_naxes s.subspace_ = 0 → AxisWise.gradient c s x1 x2 grad i = 0) := by
  have hk : i < s.param_.length := hi
  have h := AxisWise.gradient_apply c s x1 x2 grad i
  rw [if_pos hk] at h
  refine ⟨h, fun h0 => ?_⟩
  rw [h, h0]
  rfl

theorem nonstationary_gradient_slots_witness :
    AxisWise.gradient (Example.linSpec Int)
        { subspace_ := [0, 1], param_ := [5, 7], reparam_ := [] } Example.p1 Example.p2
        Example.g0 1
      = axis_sum ((Example.linSpec Int).param_gradient 1 [5, 7] []) Example.p1 Example.p2
          [0, 1] :=
  (nonstationary_gradient_slots (Example.linSpec Int)
    { subspace_ := [0, 1], param_ := [5, 7], reparam_ := [] } Example.p1 Example.p2
    Example.g0 1 (by decide)).1

/-! ## Gradient: the slots written -/

theorem Example.scaleMetric_writesItsSlots : (Example.scaleMetric Int).WritesItsSlots := by
  intro m x1 x2 g
  refine ⟨fun i hi => ?_, fun h i hi => ?_⟩
  · have h0 : i ≠ 0 := by
      simp only [Example.scaleMetric] at hi
      omega
    simp [Example.scaleMetric, write_apply, h0]
  · have h0 : i = 0 := by
      simp only [Example.scaleMetric] at hi
      omega
    simp [Example.scaleMetric, write_apply, h0]

theorem Stationary.gradient_frame [Mul F] (c : StationarySpec F M) (s : Stationary F M)
    (hm : c.metric.WritesItsSlots) (x1 x2 g h : Buf F) (i : Nat) :
    (Stationary.size c s ≤ i → Stationary.gradient c s x1 x2 g i = g i) ∧
    (i < Stationary.size c s →
      Stationary.gradient c s x1 x2 g i = Stationary.gradient c s x1 x2 h i) := by
  simp only [Stationary.size, Stationary.size_]
  have ho : ∀ (r2 : F) (b : Buf F),
      offset s.param_.length (Stationary.own_gradient c s r2 b) = offset s.param_.length b :=
    fun r2 b => Stationary.offset_own_gradient c s r2 b
  constructor
  · intro hi
    have h1 : ¬ i < s.param_.length := by omega
    have h2 : ¬ (s.param_.length ≤ i ∧ i < c.metric.size s.metric_ + s.param_.length) := by
      omega
    have h3 := (hm s.metric_ x1 x2 (offset s.param_.length g)).1 (i - s.param_.length)
      (by omega)
    have h4 : s.param_.length + (i - s.param_.length) = i := by omega
    simp [Stationary.gradient, scale_range_apply, store_at_apply,
      ho, Stationary.size, Stationary.size_, h1, h2, h3,
      offset_apply, h4]
  · intro hi
    by_cases h1 : i < s.param_.length
    · have h2 : ¬ s.param_.length ≤ i := by omega
      simp [Stationary.gradient, scale_range_apply, store_at_apply,
        Stationary.own_gradient_apply, Stationary.size, Stationary.size_, h1, h2]
    · have h2 : s.param_.length ≤ i := by omega
      have h3 := (hm s.metric_ x1 x2 (offset s.param_.length g)).2
        (offset s.param_.length h) (i - s.param_.length) (by omega)
      simp [Stationary.gradient, scale_range_apply, store_at_apply,
        ho, Stationary.size, Stationary.size_, h1, h2, hi, h3]

/-- C13: on a tree whose metrics overwrite exactly their own slots, after
`gradient(x1,x2,grad)` every slot at an index `≥ size()` holds what it held before, and
every slot at an index `< size()` holds a value that is the same whatever the memory held
before the call. -/
theorem gradient_writes_own_slots [Zero F] [Add F] [Mul F] (k : Kernel F M S)
    (hk : k.EachMetric Metric.WritesItsSlots) (x1 x2 g h : Buf F) (i : Nat) :
    (k.size ≤ i → k.gradient x1 x2 g i = g i) ∧
    (i < k.size → k.gradient x1 x2 g i = k.gradient x1 x2 h i) := by
  induction k generalizing g h i with
  | stationary c s => exact Stationary.gradient_frame c s hk x1 x2 g h i
  | axiswise c s =>
    simp only [Kernel.size, Kernel.gradient, AxisWise.size, AxisWise.size_,
      AxisWise.gradient_apply]
    constructor
    · intro hi
      have h1 : ¬ i < s.param_.length := by omega
      simp [h1]
    · intro hi
      simp [hi]
  | Sum a b iha ihb =>
    simp only [Kernel.size, Kernel.gradient, store_at_apply]
    constructor
    · intro hi
      have h1 : ¬ i < a.size := by omega
      rw [if_neg h1, (ihb hk.2 (offset a.size (a.gradient x1 x2 g)) h (i - a.size)).1
        (by omega), offset_apply]
      have h4 : a.size + (i - a.size) = i := by omega
      rw [h4]
      exact (iha hk.1 g h i).1 (by omega)
    · intro hi
      by_cases h1 : i < a.size
      · rw [if_pos h1, if_pos h1]
        exact (iha hk.1 g h i).2 h1
      · rw [if_neg h1, if_neg h1]
        exact (ihb hk.2 _ _ (i - a.size)).2 (by omega)
  | Product a b iha ihb =>
    simp only [Kernel.size, Kernel.gradient, store_at_apply, scale_range_apply]
    constructor
    · intro hi
      have h1 : ¬ i < a.size := by omega
      have h2 : ¬ (a.size ≤ i ∧ i < a.size + b.size) := by omega
      have h3 : ¬ (0 ≤ i ∧ i < a.size) := by omega
      rw [if_neg h2, if_neg h3, if_neg h1,
        (ihb hk.2 (offset a.size (a.gradient x1 x2 g)) h (i - a.size)).1 (by omega),
        offset_apply]
      have h4 : a.size + (i - a.size) = i := by omega
      rw [h4]
      exact (iha hk.1 g h i).1 (by omega)
    · intro hi
      by_cases h1 : i < a.size
      · have h2 : ¬ (a.size ≤ i ∧ i < a.size + b.size) := by omega
        have h3 : 0 ≤ i ∧ i < a.size := by omega
        simp only [if_neg h2, if_pos h3, if_pos h1]
        rw [(iha hk.1 g h i).2 h1]
      · have h2 : a.size ≤ i ∧ i < a.size + b.size := by omega
        have h3 : ¬ (0 ≤ i ∧ i < a.size) := by omega
        simp only [if_pos h2, if_neg h3, if_neg h1]
        rw [(ihb hk.2 (offset a.size (a.gradient x1 x2 g))
          (offset a.size (a.gradient x1 x2 h)) (i - a.size)).2 (by omega)]

theorem gradient_writes_own_slots_witness :
    (Kernel.Product Example.quad Example.lin).gradient Example.p1 Example.p2 Example.g0 4
      = Example.g0 4 ∧
    (Kernel.Product Example.quad Example.lin).gradient Example.p1 Example.p2 Example.g0 1
      = (Kernel.Product Example.quad Example.lin).gradient Example.p1 Example.p2
          Example.p1 1 :=
  ⟨(gradient_writes_own_slots (Kernel.Product Example.quad Example.lin)
      ⟨Example.scaleMetric_writesItsSlots, trivial⟩ Example.p1 Example.p2 Example.g0
      Example.p1 4).1 (by decide),
   (gradient_writes_own_slots (Kernel.Product Example.quad Example.lin)
      ⟨Example.scaleMetric_writesItsSlots, trivial⟩ Example.p1 Example.p2 Example.g0
      Example.p1 1).2 (by decide)⟩

/-! ## Size is constant -/

theorem Example.scaleMetric_keepsSize : (Example.scaleMetric Int).KeepsSize :=
  ⟨fun _ _ _ => rfl, fun _ _ _ => rfl⟩

theorem Kernel.size_set_parameter_any (k : Kernel F M S)
    (hk : k.EachMetric Metric.KeepsSize) (i : Nat) (v : F) :
    (k.set_parameter i v).size = k.size := by
  induction k generalizing i with
  | stationary c s =>
    simp only [Kernel.set_parameter, Kernel.size, Stationary.size, Stationary.size_]
    by_cases h : i < s.param_.length
    · simp [Stationary.set_parameter_own c s i v h, Stationary.update_reparams]
    · rw [Stationary.set_parameter_metric c s i v (by omega)]
      simp [hk.1 s.metric_ (i - s.param_.length) v]
  | axiswise c s =>
    simp only [Kernel.set_parameter, Kernel.size, AxisWise.size, AxisWise.size_]
    by_cases h : i < s.param_.length
    · simp [AxisWise.axis_set_parameter_own c s i v h, AxisWise.update_reparams]
    · rw [AxisWise.set_parameter_out c s i v (by omega)]
  | Sum a b iha ihb =>
    by_cases h : i < a.size
    · simp [Kernel.set_parameter, h, Kernel.size, iha hk.1 i]
    · simp [Kernel.set_parameter, h, Kernel.size, ihb hk.2 (i - a.size)]
  | Product a b iha ihb =>
    by_cases h : i < a.size
    · simp [Kernel.set_parameter, h, Kernel.size, iha hk.1 i]
    · simp [Kernel.set_parameter, h, Kernel.size, ihb hk.2 (i - a.size)]

theorem Kernel.nodes_size_set_parameter (k : Kernel F M S)
    (hk : k.EachMetric Metric.KeepsSize) (i : Nat) (v : F) :
    (k.set_parameter i v).nodes.map Kernel.size = k.nodes.map Kernel.size := by
  induction k generalizing i with
  | stationary c s =>
    have h := Kernel.size_set_parameter_any (Kernel.stationary c s : Kernel F M S) hk i v
    simpa [Kernel.set_parameter, Kernel.nodes] using h
  | axiswise c s =>
    have h := Kernel.size_set_parameter_any (Kernel.axiswise c s : Kernel F M S) hk i v
    simpa [Kernel.set_parameter, Kernel.nodes] using h
  | Sum a b iha ihb =>
    by_cases h : i < a.size
    · simp [Kernel.set_parameter, h, Kernel.nodes, Kernel.size, iha hk.1 i,
        Kernel.size_set_parameter_any a hk.1 i v]
    · simp [Kernel.set_parameter, h, Kernel.nodes, Kernel.size, ihb hk.2 (i - a.size),
        Kernel.size_set_parameter_any b hk.2 (i - a.size) v]
  | Product a b iha ihb =>
    by_cases h : i < a.size
    · simp [Kernel.set_parameter, h, Kernel.nodes, Kernel.size, iha hk.1 i,
        Kernel.size_set_parameter_any a hk.1 i v]
    · simp [Kernel.set_parameter, h, Kernel.nodes, Kernel.size, ihb hk.2 (i - a.size),
        Kernel.size_set_parameter_any b hk.2 (i - a.size) v]

/-- C14: on a tree whose metrics keep their `size()` under their own `set_parameter` and
`set_axis`, for every index `i` and every value, `size()` of the root and of every node
after `set_parameter(i, v)`, after `set_metric_parameter(i, v)` and after `set_axis(i, a)`
is what it was before the call. -/
theorem size_constant_under_setters (k : Kernel F M S) (hk : k.EachMetric Metric.KeepsSize)
    (i : Nat) (v : F) (a : Nat) :
    ((k.set_parameter i v).size = k.size ∧
      (k.set_parameter i v).nodes.map Kernel.size = k.nodes.map Kernel.size) ∧
    ((k.set_metric_parameter i v).size = k.size ∧
      (k.set_metric_parameter i v).nodes.map Kernel.size = k.nodes.map Kernel.size) ∧
    ((k.set_axis i a).size = k.size ∧
      (k.set_axis i a).nodes.map Kernel.size = k.nodes.map Kernel.size) := by
  refine ⟨⟨Kernel.size_set_parameter_any k hk i v, Kernel.nodes_size_set_parameter k hk i v⟩,
    ?_, ?_⟩
  · cases k with
    | stationary c s =>
      have h := hk.1 s.metric_ i v
      simp [Kernel.set_metric_parameter, Kernel.nodes, Kernel.size, Stationary.size,
        Stationary.size_, Stationary.set_metric_parameter, h]
    | axiswise c s =>
      simp [Kernel.set_metric_parameter, AxisWise.set_metric_parameter]
    | Sum k1 k2 => simp [Kernel.set_metric_parameter]
    | Product k1 k2 => simp [Kernel.set_metric_parameter]
  · cases k with
    | stationary c s =>
      have h := hk.2 s.metric_ i a
      simp [Kernel.set_axis, Kernel.nodes, Kernel.size, Stationary.size,
        Stationary.size_, Stationary.set_axis, h]
    | axiswise c s =>
      simp [Kernel.set_axis, Kernel.nodes, Kernel.size, AxisWise.size, AxisWise.size_,
        AxisWise.set_axis]
    | Sum k1 k2 => simp [Kernel.set_axis]
    | Product k1 k2 => simp [Kernel.set_axis]

theorem size_constant_under_setters_witness :
    (((Kernel.Sum Example.quad Example.lin).set_parameter 9 4).size
        = (Kernel.Sum Example.quad Example.lin).size ∧
      ((Kernel.Sum Example.quad Example.lin).set_parameter 9 4).nodes.map Kernel.size
        = (Kernel.Sum Example.quad Example.lin).nodes.map Kernel.size) ∧
    ((Example.quad.set_metric_parameter 9 4).size = Example.quad.size ∧
      (Example.quad.set_metric_parameter 9 4).nodes.map Kernel.size
        = Example.quad.nodes.map Kernel.size) ∧
    ((Example.lin.set_axis 0 1).size = Example.lin.size ∧
      (Example.lin.set_axis 0 1).nodes.map Kernel.size
        = Example.lin.nodes.map Kernel.size) :=
  ⟨(size_constant_under_setters (Kernel.Sum Example.quad Example.lin)
      ⟨Example.scaleMetric_keepsSize, trivial⟩ 9 4 0).1,
   (size_constant_under_setters Example.quad Example.scaleMetric_keepsSize 9 4 0).2.1,
   (size_constant_under_setters Example.lin trivial 0 4 1).2.2⟩

/-! ## Pass-through hooks and frames of the setters -/

/-- C15: on a stationary primitive with `k = size_` own parameters, for every
`i < size(Metric)` and every `v`, `set_metric_parameter(i, v)` leaves the object in the
state `set_parameter(k + i, v)` leaves it in: metric parameter `i` set through
`Metric.set_parameter(i, v)`, own parameters and reparameters as before. On a
non-stationary primitive `set_metric_parameter(i, v)` leaves the object as it was. -/
theorem set_metric_parameter_passthrough (cs : StationarySpec F M) (s : Stationary F M)
    (ca : AxisSpec F S) (a : AxisWise F S) (i : Nat) (v : F) :
    (i < cs.metric.size s.metric_ →
      (Kernel.stationary cs s : Kernel F M S).set_metric_parameter i v
        = (Kernel.stationary cs s : Kernel F M S).set_parameter (s.size_ + i) v ∧
      Stationary.set_metric_parameter cs s i v
        = { metric_ := cs.metric.set_parameter s.metric_ i v, param_ := s.param_,
            reparam_ := s.reparam_ }) ∧
    (Kernel.axiswise ca a : Kernel F M S).set_metric_parameter i v = Kernel.axiswise ca a := by
  refine ⟨fun _ => ⟨?_, rfl⟩, rfl⟩
  simp only [Kernel.set_metric_parameter, Kernel.set_parameter, Stationary.size_]
  rw [Stationary.set_parameter_metric cs s (s.param_.length + i) v (by omega)]
  simp [Stationary.set_metric_parameter]

theorem set_metric_parameter_passthrough_witness :
    Example.quad.set_metric_parameter 0 6 = Example.quad.set_parameter (1 + 0) 6 ∧
    Stationary.set_metric_parameter (Example.quadSpec Int)
        (Stationary.construct (Example.quadSpec Int) [3] 2 2) 0 6
      = { metric_ := 6, param_ := [3], reparam_ := [9] } :=
  (set_metric_parameter_passthrough (Example.quadSpec Int)
    (Stationary.construct (Example.quadSpec Int) [3] 2 2) (Example.linSpec Int)
    (AxisWise.construct (Example.linSpec Int) [5, 7] 2 2) 0 6).1 (by decide)

/-- C17: on a stationary primitive with `k = size_` own parameters, `set_parameter(i, v)`
with `i ≥ k` changes only the metric, through `Metric.set_parameter(i - k, v)`: every own
parameter and every cached reparameter is what it was, recomputed or not; and
`set_parameter(i, v)` with `i < k` leaves the metric and every own parameter other than
the `i`-th as they were. -/
theorem stationary_set_parameter_frame (c : StationarySpec F M) (s : Stationary F M)
    (i : Nat) (v : F) :
    (s.size_ ≤ i →
      Stationary.set_parameter c s i v
        = { metric_ := c.metric.set_parameter s.metric_ (i - s.size_) v,
            param_ := s.param_, reparam_ := s.reparam_ }) ∧
    (i < s.size_ →
      (Stationary.set_parameter c s i v).metric_ = s.metric_ ∧
      (Stationary.set_parameter c s i v).param_.length = s.param_.length ∧
      ∀ j, j ≠ i → (Stationary.set_parameter c s i v).param_[j]? = s.param_[j]?) := by
  refine ⟨fun h => Stationary.set_parameter_metric c s i v h, fun h => ?_⟩
  rw [Stationary.set_parameter_own c s i v h]
  refine ⟨rfl, by simp [Stationary.update_reparams], fun j hj => ?_⟩
  simp only [Stationary.update_reparams]
  rw [List.getElem?_set_ne (Ne.symm hj)]

theorem stationary_set_parameter_frame_witness :
    Stationary.set_parameter (Example.quadSpec Int)
        { metric_ := 1, param_ := [3], reparam_ := [10] } 1 6
      = { metric_ := 6, param_ := [3], reparam_ := [10] } ∧
    (Stationary.set_parameter (Example.quadSpec Int)
        { metric_ := 1, param_ := [3], reparam_ := [10] } 0 6).metric_ = 1 :=
  ⟨(stationary_set_parameter_frame (Example.quadSpec Int)
      { metric_ := 1, param_ := [3], reparam_ := [10] } 1 6).1 (by decide),
   ((stationary_set_parameter_frame (Example.quadSpec Int)
      { metric_ := 1, param_ := [3], reparam_ := [10] } 0 6).2 (by decide)).1⟩

theorem Example.scaleMetric_setsOnlyAddressed :
    (Example.scaleMetric Int).SetsOnlyAddressed := by
  intro m a v ha
  refine ⟨rfl, fun b hb hne => ?_⟩
  simp only [Example.scaleMetric] at ha hb
  omega

theorem Kernel.size_set_parameter_addressed (k : Kernel F M S)
    (hk : k.EachMetric Metric.SetsOnlyAddressed) (i : Nat) (v : F) (hi : i < k.size) :
    (k.set_parameter i v).size = k.size := by
  induction k generalizing i with
  | stationary c s =>
    simp only [Kernel.set_parameter, Kernel.size, Stationary.size, Stationary.size_] at hi ⊢
    by_cases h : i < s.param_.length
    · simp [Stationary.set_parameter_own c s i v h, Stationary.update_reparams]
    · rw [Stationary.set_parameter_metric c s i v (by omega)]
      have := (hk s.metric_ (i - s.param_.length) v (by omega)).1
      simp [this]
  | axiswise c s =>
    simp only [Kernel.set_parameter, Kernel.size, AxisWise.size, AxisWise.size_] at hi ⊢
    simp [AxisWise.axis_set_parameter_own c s i v hi, AxisWise.update_reparams]
  | Sum a b iha ihb =>
    simp only [Kernel.size] at hi
    by_cases h : i < a.size
    · simp [Kernel.set_parameter, h, Kernel.size, iha hk.1 i h]
    · simp [Kernel.set_parameter, h, Kernel.size, ihb hk.2 (i - a.size) (by omega)]
  | Product a b iha ihb =>
    simp only [Kernel.size] at hi
    by_cases h : i < a.size
    · simp [Kernel.set_parameter, h, Kernel.size, iha hk.1 i h]
    · simp [Kernel.set_parameter, h, Kernel.size, ihb hk.2 (i - a.size) (by omega)]

theorem Kernel.get_set_parameter_ne [Zero F] (k : Kernel F M S)
    (hk : k.EachMetric Metric.SetsOnlyAddressed) (i j : Nat) (v : F)
    (hi : i < k.size) (hj : j < k.size) (hne : j ≠ i) :
    (k.set_parameter i v).get_parameter j = k.get_parameter j := by
  induction k generalizing i j with
  | stationary c s =>
    simp only [Kernel.set_parameter, Kernel.get_parameter, Kernel.size, Stationary.size,
      Stationary.size_] at hi hj ⊢
    by_cases h : i < s.param_.length
    · rw [Stationary.set_parameter_own c s i v h]
      by_cases h1 : j < s.param_.length
      · rw [Stationary.get_parameter_own c _ j (by simpa [Stationary.update_reparams] using h1),
          Stationary.get_parameter_own c s j h1]
        simp only [Stationary.update_reparams]
        rw [List.getElem_set_ne (Ne.symm hne)]
      · rw [Stationary.get_parameter_metric c _ j
            (by simp only [Stationary.update_reparams, List.length_set]; omega),
          Stationary.get_parameter_metric c s j (by omega)]
        simp [Stationary.update_reparams]
    · rw [Stationary.set_parameter_metric c s i v (by omega)]
      by_cases h1 : j < s.param_.length
      · rw [Stationary.get_parameter_own c s j h1]
        exact Stationary.get_parameter_own c
          ⟨c.metric.set_parameter s.metric_ (i - s.param_.length) v, s.param_, s.reparam_⟩ j h1
      · rw [Stationary.get_parameter_metric c s j (by omega),
          Stationary.get_parameter_metric c
            ⟨c.metric.set_parameter s.metric_ (i - s.param_.length) v, s.param_, s.reparam_⟩ j
            (by simp only []; omega)]
        exact (hk s.metric_ (i - s.param_.length) v (by omega)).2 (j - s.param_.length)
          (by omega) (by omega)
  | axiswise c s =>
    simp only [Kernel.set_parameter, Kernel.get_parameter, Kernel.size, AxisWise.size,
      AxisWise.size_] at hi hj ⊢
    rw [AxisWise.axis_set_parameter_own c s i v hi,
      AxisWise.axis_get_parameter_own _ j (by simpa [AxisWise.update_reparams] using hj),
      AxisWise.axis_get_parameter_own s j hj]
    simp only [AxisWise.update_reparams]
    rw [List.getElem_set_ne (Ne.symm hne)]
  | Sum a b iha ihb =>
    simp only [Kernel.size] at hi hj
    by_cases h : i < a.size
    · have hs := Kernel.size_set_parameter_addressed a hk.1 i v h
      by_cases h1 : j < a.size
      · simp [Kernel.set_parameter, Kernel.get_parameter, h, h1, hs, iha hk.1 i j h h1 hne]
      · simp [Kernel.set_parameter, Kernel.get_parameter, h, h1, hs]
    · by_cases h1 : j < a.size
      · simp [Kernel.set_parameter, Kernel.get_parameter, h, h1]
      · simp [Kernel.set_parameter, Kernel.get_parameter, h, h1,
          ihb hk.2 (i - a.size) (j - a.size) (by omega) (by omega) (by omega)]
  | Product a b iha ihb =>
    simp only [Kernel.size] at hi hj
    by_cases h : i < a.size
    · have hs := Kernel.size_set_parameter_addressed a hk.1 i v h
      by_cases h1 : j < a.size
      · simp [Kernel.set_parameter, Kernel.get_parameter, h, h1, hs, iha hk.1 i j h h1 hne]
      · simp [Kernel.set_parameter, Kernel.get_parameter, h, h1, hs]
    · by_cases h1 : j < a.size
      · simp [Kernel.set_parameter, Kernel.get_parameter, h, h1]
      · simp [Kernel.set_parameter, Kernel.get_parameter, h, h1,
          ihb hk.2 (i - a.size) (j - a.size) (by omega) (by omega) (by omega)]

/-- C18: on a tree whose metrics change only the addressed metric parameter and keep their
size, for all `i, j < size()` with `j ≠ i` and every `v`, `get_parameter(j)` after
`set_parameter(i, v)` is `get_parameter(j)` before; and `set_parameter(i, v)` on
`Sum(k1,k2)` or `Product(k1,k2)` leaves `k2` as it was when `i < size(k1)` and leaves `k1`
as it was when `i ≥ size(k1)`. -/
theorem set_parameter_changes_only_addressed [Zero F] (k k1 k2 : Kernel F M S)
    (i j : Nat) (v : F) :
    (k.EachMetric Metric.SetsOnlyAddressed → i < k.size → j < k.size → j ≠ i →
      (k.set_parameter i v).get_parameter j = k.get_parameter j) ∧
    (i < k1.size →
      (Kernel.Sum k1 k2).set_parameter i v = Kernel.Sum (k1.set_parameter i v) k2 ∧
      (Kernel.Product k1 k2).set_parameter i v = Kernel.Product (k1.set_parameter i v) k2) ∧
    (k1.size ≤ i →
      (Kernel.Sum k1 k2).set_parameter i v
        = Kernel.Sum k1 (k2.set_parameter (i - k1.size) v) ∧
      (Kernel.Product k1 k2).set_parameter i v
        = Kernel.Product k1 (k2.set_parameter (i - k1.size) v)) := by
  refine ⟨fun hk hi hj hne => Kernel.get_set_parameter_ne k hk i j v hi hj hne,
    fun h => ?_, fun h => ?_⟩
  · simp [Kernel.set_parameter, h]
  · have h1 : ¬ i < k1.size := by omega
    simp [Kernel.set_parameter, h1]

theorem set_parameter_changes_only_addressed_witness :
    ((Kernel.Sum Example.quad Example.lin).set_parameter 1 8).get_parameter 2
        = (Kernel.Sum Example.quad Example.lin).get_parameter 2 ∧
    (Kernel.Sum Example.quad Example.lin).set_parameter 1 8
        = Kernel.Sum (Example.quad.set_parameter 1 8) Example.lin ∧
    (Kernel.Product Example.quad Example.lin).set_parameter 3 8
        = Kernel.Product Example.quad (Example.lin.set_parameter (3 - Example.quad.size) 8) :=
  ⟨(set_parameter_changes_only_addressed (Kernel.Sum Example.quad Example.lin)
      Example.quad Example.lin 1 2 8).1
      ⟨Example.scaleMetric_setsOnlyAddressed, trivial⟩ (by decide) (by decide) (by decide),
   ((set_parameter_changes_only_addressed (Kernel.Sum Example.quad Example.lin)
      Example.quad Example.lin 1 2 8).2.1 (by decide)).1,
   ((set_parameter_changes_only_addressed (Kernel.Sum Example.quad Example.lin)
      Example.quad Example.lin 3 2 8).2.2 (by decide)).2⟩

/-- C19: on a `Sum` or `Product` node, `set_metric_parameter(i, v)` and `set_axis(i, a)`
are the empty bodies inherited from `Kernel`: they are not forwarded to the children and
leave the whole tree as it was, so `value`, `gradient` and `get_parameter` of the node
return afterwards what they returned before, whatever the children are. -/
theorem operator_hooks_not_forwarded [Zero F] [Add F] [Mul F] (k1 k2 : Kernel F M S)
    (i : Nat) (v : F) (a : Nat) (x1 x2 grad : Buf F) (j : Nat) :
    ((Kernel.Sum k1 k2).set_metric_parameter i v = Kernel.Sum k1 k2 ∧
      (Kernel.Sum k1 k2).set_axis i a = Kernel.Sum k1 k2 ∧
      (Kernel.Product k1 k2).set_metric_parameter i v = Kernel.Product k1 k2 ∧
      (Kernel.Product k1 k2).set_axis i a = Kernel.Product k1 k2) ∧
    (((Kernel.Sum k1 k2).set_metric_parameter i v).value x1 x2
        = (Kernel.Sum k1 k2).value x1 x2 ∧
      ((Kernel.Sum k1 k2).set_metric_parameter i v).gradient x1 x2 grad
        = (Kernel.Sum k1 k2).gradient x1 x2 grad ∧
      ((Kernel.Sum k1 k2).set_metric_parameter i v).get_parameter j
        = (Kernel.Sum k1 k2).get_parameter j) ∧
    (((Kernel.Sum k1 k2).set_axis i a).value x1 x2 = (Kernel.Sum k1 k2).value x1 x2 ∧
      ((Kernel.Sum k1 k2).set_axis i a).gradient x1 x2 grad
        = (Kernel.Sum k1 k2).gradient x1 x2 grad ∧
      ((Kernel.Sum k1 k2).set_axis i a).get_parameter j
        = (Kernel.Sum k1 k2).get_parameter j) ∧
    (((Kernel.Product k1 k2).set_metric_parameter i v).value x1 x2
        = (Kernel.Product k1 k2).value x1 x2 ∧
      ((Kernel.Product k1 k2).set_metric_parameter i v).gradient x1 x2 grad
        = (Kernel.Product k1 k2).gradient x1 x2 grad ∧
      ((Kernel.Product k1 k2).set_metric_parameter i v).get_parameter j
        = (Kernel.Product k1 k2).get_parameter j) ∧
    (((Kernel.Product k1 k2).set_axis i a).value x1 x2 = (Kernel.Product k1 k2).value x1 x2 ∧
      ((Kernel.Product k1 k2).set_axis i a).gradient x1 x2 grad
        = (Kernel.Product k1 k2).gradient x1 x2 grad ∧
      ((Kernel.Product k1 k2).set_axis i a).get_parameter j
        = (Kernel.Product k1 k2).get_parameter j) :=
  ⟨⟨rfl, rfl, rfl, rfl⟩, ⟨rfl, rfl, rfl⟩, ⟨rfl, rfl, rfl⟩, ⟨rfl, rfl, rfl⟩, ⟨rfl, rfl, rfl⟩⟩

/-- C20: on a non-stationary primitive with `k = size_` own parameters, for every `i ≥ k`,
`get_parameter(i)` is `0.0` and `set_parameter(i, v)` leaves the object as it was: every
own parameter and every reparameter unchanged, the reparameters not recomputed. -/
theorem nonstationary_out_of_range [Zero F] (c : AxisSpec F S) (s : AxisWise F S)
    (i : Nat) (v : F) (h : s.size_ ≤ i) :
    AxisWise.get_parameter s i = 0 ∧ AxisWise.set_parameter c s i v = s := by
  refine ⟨?_, AxisWise.set_parameter_out c s i v h⟩
  have h1 : s.param_[i]? = none := List.getElem?_eq_none h
  simp [AxisWise.get_parameter, get_own_zero, h1]

theorem nonstationary_out_of_range_witness :
    AxisWise.get_parameter
        ({ subspace_ := [0, 1], param_ := [5, 7], reparam_ := [4] } : AxisWise Int (List Nat))
        2 = 0 ∧
    AxisWise.set_parameter (Example.linSpec Int)
        { subspace_ := [0, 1], param_ := [5, 7], reparam_ := [4] } 2 9
      = { subspace_ := [0, 1], param_ := [5, 7], reparam_ := [4] } :=
  nonstationary_out_of_range (Example.linSpec Int)
    { subspace_ := [0, 1], param_ := [5, 7], reparam_ := [4] } 2 9 (by decide)

end George
